import Mathlib

/-!
# Voting front end: embedding of the React components

Shallow embedding of `App.jsx`, `CreateVotingEvent.jsx`, `CastVote.jsx` and
`DisplayResults.jsx`.

* The ethers contract object (the "gateway") is a record of response
  functions: `none` stands for a rejected promise / thrown exception, `some v`
  for a resolved value.
* Every handler returns the component state it leaves behind, the list of
  gateway calls it issued (in order) and the console lines it wrote.
* An `await` is a suspension point.  The handlers that are examined under
  interleaving are split at their `await`s into resumption functions, and the
  run-to-completion handler is the composition of those functions.
-/

namespace Voting

/-! ## JavaScript values -/

/-- A JavaScript number that is either `NaN` or an integer (the only values
`Math.floor(date.getTime() / 1000)` can produce). -/
inductive Num where
  | nan
  | int (v : Int)
deriving DecidableEq, Repr

/-- A line written to the console. -/
inductive Console where
  | log (msg : String)
  | error (msg : String)
deriving DecidableEq, Repr

/-- The expression `new Date(text).getTime()`: the time value in integer milliseconds, or
`NaN` for an invalid date.  The engine's date parser is the parameter
`parseDate`. -/
def getTime (parseDate : String → Option Int) (text : String) : Num :=
  match parseDate text with
  | none => Num.nan
  | some ms => Num.int ms

/-- The expression `Math.floor(x / 1000)`.  For an integer time value (at most 8.64e15 in
magnitude) the double quotient is within 2^-11 of the exact one, so its floor
is the integer floor; `/` on `Int` with the positive divisor 1000 is that
floor.  `NaN` stays `NaN`. -/
def floorDiv1000 : Num → Num
  | Num.nan => Num.nan
  | Num.int ms => Num.int (ms / 1000)

/-- The method `BigNumber.toNumber()` of ethers v5: the value when it fits in 53 bits, an
overflow exception (`none`) otherwise. -/
def toNumber (n : Nat) : Option Nat :=
  if n < 2 ^ 53 then some n else none

/-- The combinator `Promise.all`: the list of all results when every promise resolves,
rejected as soon as one is rejected. -/
def promiseAll {α : Type} : List (Option α) → Option (List α)
  | [] => some []
  | none :: _ => none
  | some a :: rest =>
    match promiseAll rest with
    | none => none
    | some as => some (a :: as)

/-- The call `xs.map(f)` where `f` may throw: the mapped list, or the exception. -/
def mapThrowing {α β : Type} (f : α → Option β) : List α → Option (List β)
  | [] => some []
  | a :: rest =>
    match f a with
    | none => none
    | some b =>
      match mapThrowing f rest with
      | none => none
      | some bs => some (b :: bs)

/-! ## The contract object -/

/-- Result tuple of `getVotingEventDetails`: `details[0]` .. `details[3]`. -/
structure RawDetails where
  title : String
  options : List String
  startTime : Nat
  endTime : Nat
deriving DecidableEq, Repr

/-- Pending transaction returned by a write call; `wait` tells whether
`tx.wait()` resolves (`true`) or rejects (`false`). -/
structure Tx where
  wait : Bool
deriving DecidableEq, Repr

/-- The ethers contract held in the `contract` state of `App.jsx`. -/
structure Contract where
  eventCount : Option Nat
  getVotingEventDetails : Int → Option RawDetails
  getVoteCount : Int → Nat → Option Nat
  createVotingEvent : String → List String → Num → Num → Option Tx
  castVote : Int → Nat → Option Tx

/-- A call issued on the contract object (or on a transaction it returned). -/
inductive Call where
  | eventCount
  | getVotingEventDetails (id : Int)
  | getVoteCount (id : Int) (index : Nat)
  | createVotingEvent (title : String) (options : List String) (startTimestamp endTimestamp : Num)
  | castVote (id : Int) (option : Nat)
  | wait
deriving DecidableEq, Repr

/-- What a handler leaves behind: the component state, the gateway calls it
issued and the console lines it wrote. -/
structure Run (σ : Type) where
  state : σ
  calls : List Call
  console : List Console

/-- Whether a call is the write call `createVotingEvent`. -/
def Call.isCreateVotingEvent : Call → Bool
  | Call.createVotingEvent _ _ _ _ => true
  | _ => false

/-- Whether a call is the write call `castVote`. -/
def Call.isCastVote : Call → Bool
  | Call.castVote _ _ => true
  | _ => false

/-! ## CreateVotingEvent.jsx -/

/-- The four `useState` cells of `CreateVotingEvent`. -/
structure Draft where
  title : String
  options : List String
  startTime : String
  endTime : String
deriving DecidableEq, Repr

/-- Initial values of the four cells, also the values written by the reset. -/
def Draft.empty : Draft :=
  { title := "", options := ["", ""], startTime := "", endTime := "" }

/-- The handler `createEvent` (lines 19-37).  `contract` is the prop (`none`
for `null`), `d` the four cells read by the closure; the result carries the
cells after the run. -/
def CreateVotingEvent.createEvent (parseDate : String → Option Int)
    (contract : Option Contract) (d : Draft) : Run Draft :=
  match contract with
  | none => { state := d, calls := [], console := [] }
  | some c =>
    let startTimestamp := floorDiv1000 (getTime parseDate d.startTime)
    let endTimestamp := floorDiv1000 (getTime parseDate d.endTime)
    let call := Call.createVotingEvent d.title d.options startTimestamp endTimestamp
    match c.createVotingEvent d.title d.options startTimestamp endTimestamp with
    | none =>
      { state := d, calls := [call], console := [Console.error "Error creating voting event:"] }
    | some tx =>
      if tx.wait then
        { state := Draft.empty, calls := [call, Call.wait],
          console := [Console.log "Voting event created successfully"] }
      else
        { state := d, calls := [call, Call.wait],
          console := [Console.error "Error creating voting event:"] }

/-- The `required` attribute carried by the title input, every option input
and the two `datetime-local` inputs (lines 49, 59, 70, 77): all of them hold
a non-empty value. -/
def CreateVotingEvent.requiredFilled (d : Draft) : Bool :=
  decide (d.title ≠ "") && d.options.all (fun o => decide (o ≠ "")) &&
    decide (d.startTime ≠ "") && decide (d.endTime ≠ "")

/-- The element `<form onSubmit={createEvent}>` (line 42): the browser runs the submit
handler only when the constraint validation of the form's controls passes;
otherwise nothing of the component runs. -/
def CreateVotingEvent.submitForm (parseDate : String → Option Int)
    (contract : Option Contract) (d : Draft) : Run Draft :=
  if requiredFilled d then createEvent parseDate contract d
  else { state := d, calls := [], console := [] }

/-! ### The date parser on `datetime-local` values -/

/-- Decimal value of a digit character. -/
def digit? (c : Char) : Option Nat :=
  if '0' ≤ c ∧ c ≤ '9' then some (c.toNat - 48) else none

/-- Decimal value of a run of digit characters. -/
def digits? : List Char → Option Nat
  | [] => none
  | cs => cs.foldl (fun acc c => acc.bind fun n => (digit? c).map fun k => 10 * n + k) (some 0)

/-- Days from 1970-01-01 to the given proleptic Gregorian date. -/
def daysFromCivil (y m d : Int) : Int :=
  let y1 := if m ≤ 2 then y - 1 else y
  let era := y1 / 400
  let yoe := y1 - era * 400
  let mp := if m > 2 then m - 3 else m + 9
  let doy := (153 * mp + 2) / 5 + d - 1
  let doe := yoe * 365 + yoe / 4 - yoe / 100 + doy
  era * 146097 + doe - 719468

/-- Number of days of month `m` in year `y`. -/
def daysInMonth (y m : Nat) : Nat :=
  if m = 2 then (if (y % 4 = 0 ∧ y % 100 ≠ 0) ∨ y % 400 = 0 then 29 else 28)
  else if m = 4 ∨ m = 6 ∨ m = 9 ∨ m = 11 then 30 else 31

/-- The date parser of the engine on the values the two `datetime-local`
inputs of lines 65-78 can hold: the empty text (an invalid date) and
`YYYY-MM-DDTHH:mm` with an existing calendar date (the inputs carry no `step`,
so no seconds), read as local time in a zone that stays `utcOffsetMinutes`
east of UTC.  On any other text this function answers `none` without claiming
that the engine does: texts with seconds, a day past the end of the month or
a zone with a daylight-saving change are outside its domain.  The general
statements take the parser as a parameter; this one is used at closed inputs
of the format above only. -/
def parseDateTimeLocal (utcOffsetMinutes : Int) (text : String) : Option Int :=
  match text.toList with
  | [y1, y2, y3, y4, s1, m1, m2, s2, d1, d2, t, h1, h2, s3, n1, n2] =>
    if s1 = '-' ∧ s2 = '-' ∧ t = 'T' ∧ s3 = ':' then
      match digits? [y1, y2, y3, y4], digits? [m1, m2], digits? [d1, d2],
            digits? [h1, h2], digits? [n1, n2] with
      | some y, some m, some d, some h, some n =>
        if 1 ≤ m ∧ m ≤ 12 ∧ 1 ≤ d ∧ d ≤ daysInMonth y m ∧ h ≤ 23 ∧ n ≤ 59 then
          some (((daysFromCivil y m d * 24 + h) * 60 + n - utcOffsetMinutes) * 60000)
        else none
      | _, _, _, _, _ => none
    else none
  | _ => none

/-! ## App.jsx -/

/-- The injected wallet `window.ethereum` together with the signer made from
it: whether the `eth_requestAccounts` request resolves, and what
`signer.getAddress()` yields. -/
structure Ethereum where
  requestAccounts : Bool
  getAddress : Option String

/-- The three `useState` cells of `VotingPlatform`. -/
structure AppState where
  contract : Option Contract
  account : Option String
  eventCount : Nat

/-- Initial values of the three cells. -/
def AppState.initial : AppState :=
  { contract := none, account := none, eventCount := 0 }

/-- The function `init` of the mount effect (lines 16-36).  `ethereum` is
`window.ethereum` (`none` when undefined) and `votingContract` the object
built by `new ethers.Contract(...)`. -/
def VotingPlatform.init (ethereum : Option Ethereum) (votingContract : Contract)
    (s : AppState) : Run AppState :=
  match ethereum with
  | none => { state := s, calls := [], console := [Console.log "Please install MetaMask!"] }
  | some eth =>
    if eth.requestAccounts then
      match eth.getAddress with
      | none =>
        { state := s, calls := [], console := [Console.error "Failed to connect to Ethereum:"] }
      | some address =>
        let s1 := { s with account := some address }
        let s2 := { s1 with contract := some votingContract }
        match votingContract.eventCount with
        | none =>
          { state := s2, calls := [Call.eventCount],
            console := [Console.error "Failed to connect to Ethereum:"] }
        | some count =>
          match toNumber count with
          | none =>
            { state := s2, calls := [Call.eventCount],
              console := [Console.error "Failed to connect to Ethereum:"] }
          | some n =>
            { state := { s2 with eventCount := n }, calls := [Call.eventCount], console := [] }
    else
      { state := s, calls := [], console := [Console.error "Failed to connect to Ethereum:"] }

/-! ## The summary shown by CastVote.jsx and DisplayResults.jsx -/

/-- The object stored by `setEventDetails`. -/
structure EventDetails where
  title : String
  options : List String
  startTime : String
  endTime : String
deriving DecidableEq, Repr

/-- The object literal of lines 17-22 (the same in both components): `none`
when one of the two `toNumber()` calls throws.  `toLocaleString` renders the
date of a millisecond time value. -/
def eventDetailsOf (toLocaleString : Int → String) (details : RawDetails) :
    Option EventDetails :=
  match toNumber details.startTime, toNumber details.endTime with
  | some st, some en =>
    some { title := details.title, options := details.options,
           startTime := toLocaleString (st * 1000), endTime := toLocaleString (en * 1000) }
  | _, _ => none

/-! ## CastVote.jsx -/

/-- The three `useState` cells of `CastVote`.  `eventId` holds
`Number(e.target.value)` of a number input, taken here over the integers;
`selectedOption` holds the index of an `<option>`. -/
structure CastVoteState where
  eventId : Int
  selectedOption : Nat
  eventDetails : Option EventDetails
deriving DecidableEq, Repr

/-- Initial values of the three cells. -/
def CastVoteState.initial : CastVoteState :=
  { eventId := 0, selectedOption := 0, eventDetails := none }

/-- The function `fetchEventDetails` of `CastVote` (lines 14-26).  `eventId`
is the value captured by the closure of the render that ran the effect; `s`
is the state the setter acts on when the awaited read settles. -/
def CastVote.fetchEventDetails (toLocaleString : Int → String) (contract : Contract)
    (eventId : Int) (s : CastVoteState) : Run CastVoteState :=
  match contract.getVotingEventDetails eventId with
  | none =>
    { state := s, calls := [Call.getVotingEventDetails eventId],
      console := [Console.error "Error fetching event details:"] }
  | some details =>
    match eventDetailsOf toLocaleString details with
    | none =>
      { state := s, calls := [Call.getVotingEventDetails eventId],
        console := [Console.error "Error fetching event details:"] }
    | some d =>
      { state := { s with eventDetails := some d },
        calls := [Call.getVotingEventDetails eventId], console := [] }

/-- The effect of lines 8-12, run to completion.  `eventId` is a number in
every state, so `eventId !== null` holds and the guard is the contract. -/
def CastVote.effect (toLocaleString : Int → String) (contract : Option Contract)
    (s : CastVoteState) : Run CastVoteState :=
  match contract with
  | none => { state := s, calls := [], console := [] }
  | some c => CastVote.fetchEventDetails toLocaleString c s.eventId s

/-- The handler `castVote` (lines 28-39). -/
def CastVote.castVote (contract : Option Contract) (s : CastVoteState) : Run CastVoteState :=
  match contract with
  | none => { state := s, calls := [], console := [] }
  | some c =>
    let call := Call.castVote s.eventId s.selectedOption
    match c.castVote s.eventId s.selectedOption with
    | none =>
      { state := s, calls := [call], console := [Console.error "Error casting vote:"] }
    | some tx =>
      if tx.wait then
        { state := s, calls := [call, Call.wait],
          console := [Console.log "Vote cast successfully"] }
      else
        { state := s, calls := [call, Call.wait],
          console := [Console.error "Error casting vote:"] }

/-- The component between two events: its cells and the captured ids of the
`fetchEventDetails` runs suspended at the `await` of line 16. -/
structure CastVoteView where
  state : CastVoteState
  pending : List Int
deriving DecidableEq, Repr

/-- What can happen to a mounted `CastVote` holding a contract. -/
inductive CastVoteEvent where
  /-- The `onChange` of the event id input (line 48). -/
  | changeEventId (n : Int)
  /-- The `onChange` of the select (line 62); its options are the indices of
  the loaded summary. -/
  | selectOption (index : Nat)
  /-- The read awaited by the `k`-th suspended run settles. -/
  | settle (k : Nat)
deriving DecidableEq, Repr

/-- The view right after the contract arrives: the effect has started the
fetch for the initial id 0. -/
def CastVoteView.mounted : CastVoteView :=
  { state := CastVoteState.initial, pending := [0] }

/-- One event on a mounted `CastVote` holding `contract`.  A changed id
re-runs the effect (dependency list of line 12), which starts a new run; the
select exists only while a summary is loaded and offers its indices only. -/
def CastVote.step (toLocaleString : Int → String) (contract : Contract) (v : CastVoteView) :
    CastVoteEvent → CastVoteView
  | CastVoteEvent.changeEventId n =>
    if n = v.state.eventId then v
    else { state := { v.state with eventId := n }, pending := v.pending ++ [n] }
  | CastVoteEvent.selectOption index =>
    match v.state.eventDetails with
    | none => v
    | some d =>
      if index < d.options.length then
        { v with state := { v.state with selectedOption := index } }
      else v
  | CastVoteEvent.settle k =>
    match v.pending.get? k with
    | none => v
    | some id =>
      { state := (CastVote.fetchEventDetails toLocaleString contract id v.state).state,
        pending := v.pending.eraseIdx k }

/-- A sequence of events on a mounted `CastVote`. -/
def CastVote.run (toLocaleString : Int → String) (contract : Contract) (v : CastVoteView)
    (events : List CastVoteEvent) : CastVoteView :=
  events.foldl (CastVote.step toLocaleString contract) v

/-! ## DisplayResults.jsx -/

/-- The three `useState` cells of `DisplayResults`. -/
structure ResultsState where
  eventId : Int
  eventDetails : Option EventDetails
  voteCounts : List Nat
deriving DecidableEq, Repr

/-- Initial values of the three cells. -/
def ResultsState.initial : ResultsState :=
  { eventId := 0, eventDetails := none, voteCounts := [] }

/-- The tally reads of lines 24-27: one `getVoteCount` per option index, joined
by `Promise.all`, then `toNumber()` on each result. -/
def DisplayResults.tallies (contract : Contract) (eventId : Int) (details : RawDetails) :
    Option (List Nat) :=
  match promiseAll (details.options.enum.map fun p => contract.getVoteCount eventId p.1) with
  | none => none
  | some counts => mapThrowing toNumber counts

/-- Lines 16-22 of `fetchEventDetails`: the summary read and
`setEventDetails`.  Returns `details` when the run goes on to line 24 and
`none` when it ended in the `catch`. -/
def DisplayResults.readDetails (toLocaleString : Int → String) (contract : Contract)
    (eventId : Int) (s : ResultsState) : Run ResultsState × Option RawDetails :=
  match contract.getVotingEventDetails eventId with
  | none =>
    ({ state := s, calls := [Call.getVotingEventDetails eventId],
       console := [Console.error "Error fetching event details:"] }, none)
  | some details =>
    match eventDetailsOf toLocaleString details with
    | none =>
      ({ state := s, calls := [Call.getVotingEventDetails eventId],
         console := [Console.error "Error fetching event details:"] }, none)
    | some d =>
      ({ state := { s with eventDetails := some d },
         calls := [Call.getVotingEventDetails eventId], console := [] }, some details)

/-- Lines 24-30 of `fetchEventDetails`: the tally reads and `setVoteCounts`. -/
def DisplayResults.readCounts (contract : Contract) (eventId : Int) (details : RawDetails)
    (s : ResultsState) : Run ResultsState :=
  let calls := details.options.enum.map fun p => Call.getVoteCount eventId p.1
  match DisplayResults.tallies contract eventId details with
  | none =>
    { state := s, calls := calls, console := [Console.error "Error fetching event details:"] }
  | some counts => { state := { s with voteCounts := counts }, calls := calls, console := [] }

/-- The function `fetchEventDetails` of `DisplayResults` (lines 14-31), run
to completion with no other event in between. -/
def DisplayResults.fetchEventDetails (toLocaleString : Int → String) (contract : Contract)
    (eventId : Int) (s : ResultsState) : Run ResultsState :=
  match DisplayResults.readDetails toLocaleString contract eventId s with
  | (r, none) => r
  | (r, some details) =>
    let r2 := DisplayResults.readCounts contract eventId details r.state
    { state := r2.state, calls := r.calls ++ r2.calls, console := r.console ++ r2.console }

/-- The effect of lines 8-12, run to completion. -/
def DisplayResults.effect (toLocaleString : Int → String) (contract : Option Contract)
    (s : ResultsState) : Run ResultsState :=
  match contract with
  | none => { state := s, calls := [], console := [] }
  | some c => DisplayResults.fetchEventDetails toLocaleString c s.eventId s

/-- A run of `fetchEventDetails` suspended at an `await`, with what its
closure holds. -/
inductive Suspended where
  /-- At line 16, awaiting the summary of the captured id. -/
  | atDetails (eventId : Int)
  /-- At line 24, awaiting the tally reads of the captured id. -/
  | atCounts (eventId : Int) (details : RawDetails)
deriving DecidableEq, Repr

/-- The component between two events: its cells and the suspended runs. -/
structure ResultsView where
  state : ResultsState
  pending : List Suspended
deriving DecidableEq, Repr

/-- What can happen to a mounted `DisplayResults` holding a contract. -/
inductive ResultsEvent where
  /-- The `onChange` of the event id input (line 39). -/
  | changeEventId (n : Int)
  /-- The promise awaited by the `k`-th suspended run settles. -/
  | settle (k : Nat)
deriving DecidableEq, Repr

/-- One event on a mounted `DisplayResults` holding `contract`. -/
def DisplayResults.step (toLocaleString : Int → String) (contract : Contract)
    (v : ResultsView) : ResultsEvent → ResultsView
  | ResultsEvent.changeEventId n =>
    if n = v.state.eventId then v
    else { state := { v.state with eventId := n },
           pending := v.pending ++ [Suspended.atDetails n] }
  | ResultsEvent.settle k =>
    match v.pending.get? k with
    | none => v
    | some (Suspended.atDetails id) =>
      match DisplayResults.readDetails toLocaleString contract id v.state with
      | (r, none) => { state := r.state, pending := v.pending.eraseIdx k }
      | (r, some details) =>
        { state := r.state, pending := v.pending.set k (Suspended.atCounts id details) }
    | some (Suspended.atCounts id details) =>
      { state := (DisplayResults.readCounts contract id details v.state).state,
        pending := v.pending.eraseIdx k }

/-- A sequence of events on a mounted `DisplayResults`. -/
def DisplayResults.run (toLocaleString : Int → String) (contract : Contract)
    (v : ResultsView) (events : List ResultsEvent) : ResultsView :=
  events.foldl (DisplayResults.step toLocaleString contract) v

/-! ## Derived notions used by the statements -/

/-- Whether the write call of `createEvent` and the wait on its transaction
both succeed for this draft. -/
def CreateVotingEvent.confirmed (parseDate : String → Option Int) (c : Contract) (d : Draft) :
    Bool :=
  match c.createVotingEvent d.title d.options (floorDiv1000 (getTime parseDate d.startTime))
      (floorDiv1000 (getTime parseDate d.endTime)) with
  | none => false
  | some tx => tx.wait

/-- The ids entered in the event id input during a sequence of events. -/
def CastVote.requested : List CastVoteEvent → List Int
  | [] => []
  | CastVoteEvent.changeEventId n :: rest => n :: CastVote.requested rest
  | CastVoteEvent.selectOption _ :: rest => CastVote.requested rest
  | CastVoteEvent.settle _ :: rest => CastVote.requested rest

/-- The consistency that every reachable view of `CastVote` has with respect
to the ids `ids` selected so far. -/
def CastVote.Consistent (toLocaleString : Int → String) (c : Contract) (ids : List Int)
    (v : CastVoteView) : Prop :=
  (∀ id ∈ v.pending, id ∈ ids) ∧
  (v.state.selectedOption = 0 ∨
    ∃ id ∈ ids, ∃ raw, c.getVotingEventDetails id = some raw ∧
      v.state.selectedOption < raw.options.length) ∧
  (∀ d, v.state.eventDetails = some d →
    ∃ id ∈ ids, ∃ raw, c.getVotingEventDetails id = some raw ∧
      eventDetailsOf toLocaleString raw = some d)

/-- The index `i` was picked by a selection among `events` at a moment when
the summary then loaded offered it, and no later event changed the selection. -/
def CastVote.PickedWhenOffered (toLocaleString : Int → String) (c : Contract)
    (events : List CastVoteEvent) (i : Nat) : Prop :=
  ∃ pre post d,
    events = pre ++ CastVoteEvent.selectOption i :: post ∧
    (CastVote.run toLocaleString c CastVoteView.mounted pre).state.eventDetails = some d ∧
    i < d.options.length ∧
    ∀ q, q <+: post →
      (CastVote.run toLocaleString c CastVoteView.mounted
        (pre ++ CastVoteEvent.selectOption i :: q)).state.selectedOption = i

/-- The summary `d` is the gateway's summary of the id captured by the last
run among `events` whose read settled with a summary; that id had been
entered (or is the initial 0) before the read settled. -/
def CastVote.LoadedByLastRead (toLocaleString : Int → String) (c : Contract)
    (events : List CastVoteEvent) (d : EventDetails) : Prop :=
  ∃ pre k post id raw,
    events = pre ++ CastVoteEvent.settle k :: post ∧
    (CastVote.run toLocaleString c CastVoteView.mounted pre).pending.get? k = some id ∧
    id ∈ 0 :: CastVote.requested pre ∧
    c.getVotingEventDetails id = some raw ∧
    eventDetailsOf toLocaleString raw = some d ∧
    ∀ q k2 id2, q ++ [CastVoteEvent.settle k2] <+: post →
      (CastVote.run toLocaleString c CastVoteView.mounted
        (pre ++ CastVoteEvent.settle k :: q)).pending.get? k2 = some id2 →
      (c.getVotingEventDetails id2).bind (eventDetailsOf toLocaleString) = none

/-- The views that settlements can produce once the fetch of `p1` and the
fetch of `p2` are both in flight from the state `s`: which runs are still
suspended, and what the cells then hold. -/
def DisplayResults.TwoInFlight (s : ResultsState) (p1 p2 : Int) (raw1 raw2 : RawDetails)
    (d1 d2 : EventDetails) (n1 n2 : List Nat) (v : ResultsView) : Prop :=
  v.state.eventId = p2 ∧
  ((v.pending = [Suspended.atDetails p1, Suspended.atDetails p2] ∧
      v.state.eventDetails = s.eventDetails ∧ v.state.voteCounts = s.voteCounts) ∨
   (v.pending = [Suspended.atCounts p1 raw1, Suspended.atDetails p2] ∧
      v.state.eventDetails = some d1 ∧ v.state.voteCounts = s.voteCounts) ∨
   (v.pending = [Suspended.atDetails p1, Suspended.atCounts p2 raw2] ∧
      v.state.eventDetails = some d2 ∧ v.state.voteCounts = s.voteCounts) ∨
   (v.pending = [Suspended.atCounts p1 raw1, Suspended.atCounts p2 raw2] ∧
      (v.state.eventDetails = some d1 ∨ v.state.eventDetails = some d2) ∧
      v.state.voteCounts = s.voteCounts) ∨
   (v.pending = [Suspended.atDetails p2] ∧
      v.state.eventDetails = some d1 ∧ v.state.voteCounts = n1) ∨
   (v.pending = [Suspended.atCounts p2 raw2] ∧
      (v.state.eventDetails = some d1 ∨ v.state.eventDetails = some d2) ∧
      v.state.voteCounts = n1) ∨
   (v.pending = [Suspended.atDetails p1] ∧
      v.state.eventDetails = some d2 ∧ v.state.voteCounts = n2) ∨
   (v.pending = [Suspended.atCounts p1 raw1] ∧
      (v.state.eventDetails = some d1 ∨ v.state.eventDetails = some d2) ∧
      v.state.voteCounts = n2) ∨
   (v.pending = [] ∧
      (v.state.eventDetails = some d1 ∨ v.state.eventDetails = some d2) ∧
      (v.state.voteCounts = n1 ∨ v.state.voteCounts = n2)))

/-- The summary `d` was written by the last summary read among `events`
(started from the view `v0`) that settled with a summary: it is the gateway's
summary of the id that run had captured. -/
def DisplayResults.SummaryByLastRead (toLocaleString : Int → String) (c : Contract)
    (v0 : ResultsView) (events : List ResultsEvent) (d : EventDetails) : Prop :=
  ∃ pre k post id raw,
    events = pre ++ ResultsEvent.settle k :: post ∧
    (DisplayResults.run toLocaleString c v0 pre).pending.get? k
      = some (Suspended.atDetails id) ∧
    c.getVotingEventDetails id = some raw ∧
    eventDetailsOf toLocaleString raw = some d ∧
    ∀ q k2 id2, q ++ [ResultsEvent.settle k2] <+: post →
      (DisplayResults.run toLocaleString c v0
        (pre ++ ResultsEvent.settle k :: q)).pending.get? k2 = some (Suspended.atDetails id2) →
      (c.getVotingEventDetails id2).bind (eventDetailsOf toLocaleString) = none

/-- The tally list `n` was written by the last join of tally reads among
`events` (started from the view `v0`) that settled with a list: it is the list
of tallies of the id that run had captured. -/
def DisplayResults.TalliesByLastJoin (toLocaleString : Int → String) (c : Contract)
    (v0 : ResultsView) (events : List ResultsEvent) (n : List Nat) : Prop :=
  ∃ pre k post id raw,
    events = pre ++ ResultsEvent.settle k :: post ∧
    (DisplayResults.run toLocaleString c v0 pre).pending.get? k
      = some (Suspended.atCounts id raw) ∧
    DisplayResults.tallies c id raw = some n ∧
    ∀ q k2 id2 raw2, q ++ [ResultsEvent.settle k2] <+: post →
      (DisplayResults.run toLocaleString c v0
        (pre ++ ResultsEvent.settle k :: q)).pending.get? k2
        = some (Suspended.atCounts id2 raw2) →
      DisplayResults.tallies c id2 raw2 = none

/-! ## Concrete gateways for the scenarios -/

/-- A date rendering that tells the two polls of `demoContract` apart. -/
def demoLocale (ms : Int) : String :=
  if ms < 250000 then "early" else "late"

/-- Two polls: poll 0 with options Yes/No and tallies 3 and 5, poll 1 with
three options and tallies 7, 8, 9.  Writes are accepted and confirmed, except
a vote for an option index the poll does not have, which is rejected. -/
def demoContract : Contract :=
  { eventCount := some 2
    getVotingEventDetails := fun id =>
      if id = 0 then
        some { title := "Lunch", options := ["Yes", "No"], startTime := 100, endTime := 200 }
      else if id = 1 then
        some { title := "Trip", options := ["Sea", "Hills", "Town"], startTime := 300,
               endTime := 400 }
      else none
    getVoteCount := fun id index =>
      if id = 0 then (if index = 0 then some 3 else some 5)
      else if id = 1 then some (7 + index)
      else none
    createVotingEvent := fun _ _ _ _ => some { wait := true }
    castVote := fun id index =>
      if (id = 0 ∧ index < 2) ∨ (id = 1 ∧ index < 3) then some { wait := true } else none }

/-- The gateway `demoContract` with the tally read of option 1 of poll 1 rejected. -/
def tallyFailingContract : Contract :=
  { demoContract with
    getVoteCount := fun id index =>
      if id = 1 ∧ index = 1 then none else demoContract.getVoteCount id index }

/-- The gateway `demoContract` with poll 0 scheduled to end at second 2^53. -/
def farFutureContract : Contract :=
  { demoContract with
    getVotingEventDetails := fun id =>
      if id = 0 then
        some { title := "Lunch", options := ["Yes", "No"], startTime := 100, endTime := 2 ^ 53 }
      else none }

/-- The gateway `demoContract` with the tally of option 1 of poll 0 at 2^53. -/
def hugeTallyContract : Contract :=
  { demoContract with
    getVoteCount := fun id index =>
      if id = 0 ∧ index = 1 then some (2 ^ 53) else demoContract.getVoteCount id index }

/-- A gateway that rejects every call. -/
def rejectingContract : Contract :=
  { eventCount := none
    getVotingEventDetails := fun _ => none
    getVoteCount := fun _ _ => none
    createVotingEvent := fun _ _ _ _ => none
    castVote := fun _ _ => none }

/-- The view of `DisplayResults` showing poll 0 of `demoContract`. -/
def showingPollZero : ResultsState :=
  { eventId := 0,
    eventDetails := some { title := "Lunch", options := ["Yes", "No"], startTime := "early",
                           endTime := "early" },
    voteCounts := [3, 5] }

/-- The state of `CastVote` with the two-option poll 0 of `demoContract` loaded
and `selectedOption = 2`. -/
def outOfRangeSelection : CastVoteState :=
  { eventId := 0, selectedOption := 2,
    eventDetails := some { title := "Lunch", options := ["Yes", "No"], startTime := "early",
                           endTime := "early" } }

/-! ## Auxiliary facts -/

theorem enum_map_index {α β : Type} (l : List α) (g : Nat → β) :
    (l.enum.map fun p => g p.1) = (List.range l.length).map g := by
  rw [← List.enum_map_fst l, List.map_map]
  rfl

theorem promiseAll_map_some {α β : Type} (l : List α) (f : α → Option β) (v : α → β)
    (h : ∀ a ∈ l, f a = some (v a)) : promiseAll (l.map f) = some (l.map v) := by
  induction l with
  | nil => rfl
  | cons a rest ih =>
    have ha := h a (List.mem_cons_self a rest)
    have hrest := ih (fun b hb => h b (List.mem_cons_of_mem a hb))
    simp [promiseAll, ha, hrest]

theorem promiseAll_none_of_mem {α : Type} (l : List (Option α)) (h : none ∈ l) :
    promiseAll l = none := by
  induction l with
  | nil => cases h
  | cons a rest ih =>
    cases a with
    | none => rfl
    | some x =>
      have : none ∈ rest := by
        rcases List.mem_cons.mp h with h1 | h1
        · cases h1
        · exact h1
      simp [promiseAll, ih this]

theorem mapThrowing_toNumber_of_lt (l : List Nat) (h : ∀ n ∈ l, n < 2 ^ 53) :
    mapThrowing toNumber l = some l := by
  induction l with
  | nil => rfl
  | cons a rest ih =>
    have ha : toNumber a = some a := by
      unfold toNumber
      rw [if_pos (h a (List.mem_cons_self a rest))]
    have hrest := ih (fun b hb => h b (List.mem_cons_of_mem a hb))
    simp [mapThrowing, ha, hrest]

/-- When every tally read resolves with a value below 2^53, the joined reads
yield those values in index order. -/
theorem tallies_of_reads (c : Contract) (p : Int) (raw : RawDetails)
    (h : ∀ i, i < raw.options.length → ∃ v, c.getVoteCount p i = some v ∧ v < 2 ^ 53) :
    DisplayResults.tallies c p raw =
      some ((List.range raw.options.length).map fun i => (c.getVoteCount p i).getD 0) := by
  unfold DisplayResults.tallies
  rw [enum_map_index raw.options (c.getVoteCount p)]
  have hall : promiseAll ((List.range raw.options.length).map (c.getVoteCount p)) =
      some ((List.range raw.options.length).map fun i => (c.getVoteCount p i).getD 0) := by
    apply promiseAll_map_some
    intro i hi
    obtain ⟨v, hv, _⟩ := h i (List.mem_range.mp hi)
    simp [hv]
  rw [hall]
  apply mapThrowing_toNumber_of_lt
  intro n hn
  obtain ⟨i, hi, rfl⟩ := List.mem_map.mp hn
  obtain ⟨v, hv, hlt⟩ := h i (List.mem_range.mp hi)
  simpa [hv] using hlt

/-- One rejected tally read rejects the joined reads. -/
theorem tallies_none_of_read (c : Contract) (p : Int) (raw : RawDetails) (i : Nat)
    (hi : i < raw.options.length) (h : c.getVoteCount p i = none) :
    DisplayResults.tallies c p raw = none := by
  unfold DisplayResults.tallies
  rw [enum_map_index raw.options (c.getVoteCount p)]
  have : promiseAll ((List.range raw.options.length).map (c.getVoteCount p)) = none := by
    apply promiseAll_none_of_mem
    exact List.mem_map.mpr ⟨i, List.mem_range.mpr hi, h⟩
  rw [this]

/-- The tally step never touches the summary or the id, and writes the tally
list only when the joined reads resolve. -/
theorem readCounts_state (c : Contract) (p : Int) (raw : RawDetails) (s : ResultsState) :
    (DisplayResults.readCounts c p raw s).state =
      match DisplayResults.tallies c p raw with
      | none => s
      | some counts => { s with voteCounts := counts } := by
  unfold DisplayResults.readCounts
  cases DisplayResults.tallies c p raw <;> rfl

/-- The stored summary carries the options of the tuple it was built from. -/
theorem eventDetailsOf_options (toLocaleString : Int → String) (raw : RawDetails)
    (d : EventDetails) (h : eventDetailsOf toLocaleString raw = some d) :
    d.options = raw.options := by
  unfold eventDetailsOf at h
  split at h
  · cases h
    rfl
  · cases h

/-- With both timestamps below 2^53 the summary object is built. -/
theorem eventDetailsOf_of_lt (toLocaleString : Int → String) (raw : RawDetails)
    (hs : raw.startTime < 2 ^ 53) (he : raw.endTime < 2 ^ 53) :
    eventDetailsOf toLocaleString raw =
      some { title := raw.title, options := raw.options,
             startTime := toLocaleString (raw.startTime * 1000),
             endTime := toLocaleString (raw.endTime * 1000) } := by
  unfold eventDetailsOf toNumber
  rw [if_pos hs, if_pos he]

/-! ## CreateVotingEvent: validation, reset and timestamps -/

open CreateVotingEvent

/-- C1 (refuted as stated): with a gateway present, `createEvent` on a draft
whose second option is empty issues the write call `createVotingEvent` (and
then waits on the transaction); it neither stops before the gateway nor
reports a validation error. -/
theorem createEvent_empty_option_reaches_gateway :
    "" ∈ (Draft.mk "T" ["A", ""] "2025-01-01T00:00" "2025-01-02T00:00").options ∧
    (createEvent (parseDateTimeLocal 0) (some demoContract)
      (Draft.mk "T" ["A", ""] "2025-01-01T00:00" "2025-01-02T00:00")).calls =
      [Call.createVotingEvent "T" ["A", ""] (Num.int 1735689600) (Num.int 1735776000),
       Call.wait] := by
  decide

/-- C1 (amended): for a draft with an empty title, an empty option or an
empty start or end, `createEvent` itself does not validate: with a gateway
present it issues exactly one `createVotingEvent` call carrying the draft as
it is.  Such a draft is kept from the gateway only by the `required` inputs of
the form: submitting the form then runs no handler, issues no gateway call,
writes nothing and leaves the draft as it was. -/
theorem createEvent_unvalidated_form_gated (parseDate : String → Option Int) (c : Contract)
    (d : Draft)
    (h : d.title = "" ∨ "" ∈ d.options ∨ d.startTime = "" ∨ d.endTime = "") :
    (createEvent parseDate (some c) d).calls.head? =
        some (Call.createVotingEvent d.title d.options
          (floorDiv1000 (getTime parseDate d.startTime))
          (floorDiv1000 (getTime parseDate d.endTime))) ∧
      ((createEvent parseDate (some c) d).calls.filter Call.isCreateVotingEvent).length = 1 ∧
      (submitForm parseDate (some c) d).calls = [] ∧
      (submitForm parseDate (some c) d).state = d ∧
      (submitForm parseDate (some c) d).console = [] := by
  have hreq : requiredFilled d = false := by
    unfold requiredFilled
    rcases h with h | h | h | h
    · simp [h]
    · simp only [ne_eq, Bool.and_eq_false_imp, Bool.and_eq_true, decide_eq_true_eq,
        List.all_eq_true, decide_eq_false_iff_not, not_not, and_imp]
      intro _ hall
      exact absurd rfl (hall "" h)
    · simp [h]
    · simp [h]
  refine ⟨?_, ?_, ?_, ?_, ?_⟩
  · unfold createEvent
    simp only []
    split
    · rfl
    · split <;> rfl
  · unfold createEvent
    simp only []
    split
    · simp [Call.isCreateVotingEvent]
    · split <;> simp [Call.isCreateVotingEvent]
  all_goals simp [submitForm, hreq]

/-- Instance of `createEvent_unvalidated_form_gated` at the draft T / A, empty / s / e with
a date parser that rejects every text. -/
theorem createEvent_unvalidated_form_gated_witness :
    "" ∈ (Draft.mk "T" ["A", ""] "s" "e").options ∧
      ((createEvent (fun _ => none) (some demoContract)
          (Draft.mk "T" ["A", ""] "s" "e")).calls.filter Call.isCreateVotingEvent).length = 1 ∧
      (submitForm (fun _ => none) (some demoContract) (Draft.mk "T" ["A", ""] "s" "e")).calls
        = [] :=
  ⟨by decide,
   (createEvent_unvalidated_form_gated (fun _ => none) demoContract
      (Draft.mk "T" ["A", ""] "s" "e") (Or.inr (Or.inl (by decide)))).2.1,
   (createEvent_unvalidated_form_gated (fun _ => none) demoContract
      (Draft.mk "T" ["A", ""] "s" "e") (Or.inr (Or.inl (by decide)))).2.2.1⟩

/-- C3 (refuted as stated): on the empty default draft with a gateway that
rejects the write call, the draft after `createEvent` equals the empty default
although nothing succeeded, so "equals the empty default" is not equivalent to
"write call and confirmation succeeded". -/
theorem createEvent_empty_draft_breaks_iff :
    ¬ ((createEvent (parseDateTimeLocal 0) (some rejectingContract) Draft.empty).state
          = Draft.empty ↔
        confirmed (parseDateTimeLocal 0) rejectingContract Draft.empty = true) := by
  decide

/-- C3 (amended): for every draft and every gateway, the draft after
`createEvent` is the empty default when write call and confirmation both
succeed and is otherwise exactly the draft before the call; hence it equals
the empty default if and only if both succeeded or it already was the
empty default.  Exactly one write call is issued. -/
theorem createEvent_resets_exactly_on_confirmation (parseDate : String → Option Int)
    (c : Contract) (d : Draft) :
    (createEvent parseDate (some c) d).state =
        (if confirmed parseDate c d then Draft.empty else d) ∧
      ((createEvent parseDate (some c) d).state = Draft.empty ↔
        (confirmed parseDate c d = true ∨ d = Draft.empty)) ∧
      ((createEvent parseDate (some c) d).calls.filter Call.isCreateVotingEvent).length = 1 := by
  have hstate : (createEvent parseDate (some c) d).state =
      (if confirmed parseDate c d then Draft.empty else d) := by
    unfold createEvent confirmed
    simp only []
    split
    · simp
    · split <;> simp_all
  refine ⟨hstate, ?_, ?_⟩
  · rw [hstate]
    by_cases hc : confirmed parseDate c d = true
    · simp [hc]
    · simp [hc]
  · unfold createEvent
    simp only []
    split
    · simp [Call.isCreateVotingEvent]
    · split <;> simp [Call.isCreateVotingEvent]

/-- C10: when start and end parse to the millisecond instants `s` and `e`,
the write call carries the title and the options unchanged and the integers
`s / 1000` and `e / 1000` (floor), each `t` with `1000 * t ≤ ms < 1000 * (t + 1)`;
the conversion is monotone, and strictly so across a gap of at least 1000 ms. -/
theorem createEvent_transmits_floor_seconds (parseDate : String → Option Int) (c : Contract)
    (d : Draft) (s e : Int)
    (hs : parseDate d.startTime = some s) (he : parseDate d.endTime = some e) :
    (createEvent parseDate (some c) d).calls.head? =
        some (Call.createVotingEvent d.title d.options (Num.int (s / 1000))
          (Num.int (e / 1000))) ∧
      (1000 * (s / 1000) ≤ s ∧ s < 1000 * (s / 1000 + 1)) ∧
      (1000 * (e / 1000) ≤ e ∧ e < 1000 * (e / 1000 + 1)) ∧
      (s ≤ e → s / 1000 ≤ e / 1000) ∧
      (s + 1000 ≤ e → s / 1000 < e / 1000) := by
  refine ⟨?_, ⟨by omega, by omega⟩, ⟨by omega, by omega⟩, by omega, by omega⟩
  unfold createEvent
  simp only [getTime, hs, he, floorDiv1000]
  split
  · rfl
  · split <;> rfl

/-- Instance of `createEvent_transmits_floor_seconds` at the draft of the end-to-end
scenario, dates read in UTC: the two timestamps are 86400 seconds apart. -/
theorem createEvent_transmits_floor_seconds_witness :
    parseDateTimeLocal 0 "2025-01-01T00:00" = some 1735689600000 ∧
    parseDateTimeLocal 0 "2025-01-02T00:00" = some 1735776000000 ∧
    (createEvent (parseDateTimeLocal 0) (some demoContract)
        (Draft.mk "T" ["A", "B"] "2025-01-01T00:00" "2025-01-02T00:00")).calls.head? =
      some (Call.createVotingEvent "T" ["A", "B"] (Num.int (1735689600000 / 1000))
        (Num.int (1735776000000 / 1000))) ∧
    ((1735776000000 : Int) / 1000 - 1735689600000 / 1000 = 86400) :=
  ⟨by decide, by decide,
   (createEvent_transmits_floor_seconds (parseDateTimeLocal 0) demoContract
      (Draft.mk "T" ["A", "B"] "2025-01-01T00:00" "2025-01-02T00:00")
      1735689600000 1735776000000 (by decide) (by decide)).1,
   by decide⟩

/-! ## CastVote: the submitted option index -/

/-- C2 (refuted as stated): with the two-option poll 0 loaded and
`selectedOption = 2`, `castVote` calls the gateway's `castVote` with index 2;
the gateway rejects it and the run ends in the `catch` of the submission. -/
theorem castVote_out_of_range_reaches_gateway :
    outOfRangeSelection.eventDetails =
      (CastVote.fetchEventDetails demoLocale demoContract 0
        CastVoteState.initial).state.eventDetails ∧
    (outOfRangeSelection.eventDetails.map fun d => d.options.length) = some 2 ∧
    outOfRangeSelection.selectedOption = 2 ∧
    (CastVote.castVote (some demoContract) outOfRangeSelection).calls = [Call.castVote 0 2] ∧
    (CastVote.castVote (some demoContract) outOfRangeSelection).console =
      [Console.error "Error casting vote:"] := by
  decide

/-- C2 (amended): `castVote` performs no check of the option index, whatever
summary is loaded and whatever `selectedOption` is (in particular when it is
at or beyond the length of the loaded options): with a gateway present it
issues exactly one gateway `castVote` call, with the current `eventId` and
that `selectedOption`, and leaves the component state as it was; when the
gateway rejects the call, that single call is the whole run and it ends in
the `catch` (a submission failure). -/
theorem castVote_submits_index_unchecked (c : Contract) (s : CastVoteState) :
    (CastVote.castVote (some c) s).calls.head? =
        some (Call.castVote s.eventId s.selectedOption) ∧
      ((CastVote.castVote (some c) s).calls.filter Call.isCastVote).length = 1 ∧
      (CastVote.castVote (some c) s).state = s ∧
      (c.castVote s.eventId s.selectedOption = none →
        (CastVote.castVote (some c) s).calls = [Call.castVote s.eventId s.selectedOption] ∧
        (CastVote.castVote (some c) s).console = [Console.error "Error casting vote:"]) := by
  unfold CastVote.castVote
  simp only []
  cases hw : c.castVote s.eventId s.selectedOption with
  | none => simp [Call.isCastVote]
  | some tx => cases htx : tx.wait <;> simp [Call.isCastVote, htx]

/-! ## DisplayResults: one fetch run to completion -/

/-- C4 (refuted as stated): poll 0 of `farFutureContract` ends at second 2^53.
Its summary read and both tally reads resolve, yet `toNumber()` throws on the
end time, the run ends in the `catch` before any tally read is issued, and the
stored tally list stays empty although the poll has two options.  Likewise
with `hugeTallyContract`, whose tally of option 1 is 2^53: the summary read
and both tally reads are issued and resolve, `toNumber()` throws on the second
count and no tally list is stored. -/
theorem fetchEventDetails_overflow_stores_nothing :
    (farFutureContract.getVotingEventDetails 0 =
        some { title := "Lunch", options := ["Yes", "No"], startTime := 100,
               endTime := 2 ^ 53 } ∧
      farFutureContract.getVoteCount 0 0 = some 3 ∧
      farFutureContract.getVoteCount 0 1 = some 5 ∧
      (DisplayResults.fetchEventDetails demoLocale farFutureContract 0
        ResultsState.initial).state.voteCounts = [] ∧
      (DisplayResults.fetchEventDetails demoLocale farFutureContract 0
        ResultsState.initial).calls = [Call.getVotingEventDetails 0]) ∧
    (hugeTallyContract.getVotingEventDetails 0 =
        some { title := "Lunch", options := ["Yes", "No"], startTime := 100,
               endTime := 200 } ∧
      hugeTallyContract.getVoteCount 0 0 = some 3 ∧
      hugeTallyContract.getVoteCount 0 1 = some (2 ^ 53) ∧
      (DisplayResults.fetchEventDetails demoLocale hugeTallyContract 0
        ResultsState.initial).state.voteCounts = [] ∧
      (DisplayResults.fetchEventDetails demoLocale hugeTallyContract 0
        ResultsState.initial).calls =
        [Call.getVotingEventDetails 0, Call.getVoteCount 0 0, Call.getVoteCount 0 1]) := by
  decide

/-- C4 (amended): when the summary read of poll `p` and all its tally reads
resolve and every returned timestamp and tally is below 2^53 (the range
`toNumber()` converts), the fetch stores a tally list as long as the poll's
options whose entry at each index `i` is the value returned by
`getVoteCount(p, i)`, and it stores the summary built from the tuple read. -/
theorem fetchEventDetails_stores_tallies (toLocaleString : Int → String) (c : Contract)
    (p : Int) (s : ResultsState) (raw : RawDetails)
    (hread : c.getVotingEventDetails p = some raw)
    (hstart : raw.startTime < 2 ^ 53) (hend : raw.endTime < 2 ^ 53)
    (hcounts : ∀ i, i < raw.options.length →
      ∃ v, c.getVoteCount p i = some v ∧ v < 2 ^ 53) :
    (DisplayResults.fetchEventDetails toLocaleString c p s).state.voteCounts.length =
        raw.options.length ∧
      (∀ i, i < raw.options.length →
        (DisplayResults.fetchEventDetails toLocaleString c p s).state.voteCounts[i]? =
          c.getVoteCount p i) ∧
      (DisplayResults.fetchEventDetails toLocaleString c p s).state.eventDetails =
        eventDetailsOf toLocaleString raw ∧
      (eventDetailsOf toLocaleString raw).isSome = true := by
  have hd := eventDetailsOf_of_lt toLocaleString raw hstart hend
  have ht := tallies_of_reads c p raw hcounts
  have hst : (DisplayResults.fetchEventDetails toLocaleString c p s).state =
      { s with eventDetails := eventDetailsOf toLocaleString raw,
               voteCounts := (List.range raw.options.length).map
                 fun i => (c.getVoteCount p i).getD 0 } := by
    unfold DisplayResults.fetchEventDetails DisplayResults.readDetails
    simp only [hread, hd, readCounts_state, ht]
  rw [hst]
  refine ⟨by simp, ?_, rfl, by simp [hd]⟩
  intro i hi
  obtain ⟨v, hv, _⟩ := hcounts i hi
  simp [hi, hv]

/-- Instance of `fetchEventDetails_stores_tallies` at poll 0 of `demoContract`: options
Yes/No with tallies 3 and 5 give the stored list 3, 5. -/
theorem fetchEventDetails_stores_tallies_witness :
    (DisplayResults.fetchEventDetails demoLocale demoContract 0
        ResultsState.initial).state.voteCounts = [3, 5] ∧
      (DisplayResults.fetchEventDetails demoLocale demoContract 0
        ResultsState.initial).state.voteCounts.length = 2 ∧
      (DisplayResults.fetchEventDetails demoLocale demoContract 0
        ResultsState.initial).state.voteCounts[1]? = demoContract.getVoteCount 0 1 :=
  ⟨by decide,
   (fetchEventDetails_stores_tallies demoLocale demoContract 0 ResultsState.initial
      { title := "Lunch", options := ["Yes", "No"], startTime := 100, endTime := 200 }
      (by decide) (by decide) (by decide)
      (by
        intro i hi
        have h2 : i < 2 := hi
        interval_cases i
        · exact ⟨3, by decide, by decide⟩
        · exact ⟨5, by decide, by decide⟩)).1,
   (fetchEventDetails_stores_tallies demoLocale demoContract 0 ResultsState.initial
      { title := "Lunch", options := ["Yes", "No"], startTime := 100, endTime := 200 }
      (by decide) (by decide) (by decide)
      (by
        intro i hi
        have h2 : i < 2 := hi
        interval_cases i
        · exact ⟨3, by decide, by decide⟩
        · exact ⟨5, by decide, by decide⟩)).2.1 1 (by decide)⟩

/-- C5 (refuted as stated): the view shows poll 0 with tallies 3, 5; a fetch
of poll 1 whose summary read resolves and whose tally read of option 1 is
rejected replaces the displayed summary by that of poll 1 and keeps the
tallies of poll 0. -/
theorem fetchEventDetails_tally_failure_changes_summary :
    (tallyFailingContract.getVotingEventDetails 1).isSome = true ∧
      tallyFailingContract.getVoteCount 1 1 = none ∧
      (DisplayResults.fetchEventDetails demoLocale tallyFailingContract 1
        { showingPollZero with eventId := 1 }).state.eventDetails =
        some { title := "Trip", options := ["Sea", "Hills", "Town"], startTime := "late",
               endTime := "late" } ∧
      (DisplayResults.fetchEventDetails demoLocale tallyFailingContract 1
        { showingPollZero with eventId := 1 }).state.eventDetails ≠
        showingPollZero.eventDetails ∧
      (DisplayResults.fetchEventDetails demoLocale tallyFailingContract 1
        { showingPollZero with eventId := 1 }).state.voteCounts = [3, 5] := by
  decide

/-- C5 (amended): when the summary read resolves (with timestamps below 2^53)
and at least one tally read is rejected, the stored tallies are unchanged but
the displayed summary is replaced by the one just read (it is set before the
tally reads are issued); the id is unchanged and the failure is logged. -/
theorem fetchEventDetails_tally_failure (toLocaleString : Int → String) (c : Contract)
    (p : Int) (s : ResultsState) (raw : RawDetails) (i : Nat)
    (hread : c.getVotingEventDetails p = some raw)
    (hstart : raw.startTime < 2 ^ 53) (hend : raw.endTime < 2 ^ 53)
    (hi : i < raw.options.length) (hfail : c.getVoteCount p i = none) :
    (DisplayResults.fetchEventDetails toLocaleString c p s).state.voteCounts = s.voteCounts ∧
      (DisplayResults.fetchEventDetails toLocaleString c p s).state.eventDetails =
        some { title := raw.title, options := raw.options,
               startTime := toLocaleString (raw.startTime * 1000),
               endTime := toLocaleString (raw.endTime * 1000) } ∧
      (DisplayResults.fetchEventDetails toLocaleString c p s).state.eventId = s.eventId ∧
      (DisplayResults.fetchEventDetails toLocaleString c p s).console =
        [Console.error "Error fetching event details:"] := by
  have hd := eventDetailsOf_of_lt toLocaleString raw hstart hend
  have ht := tallies_none_of_read c p raw i hi hfail
  unfold DisplayResults.fetchEventDetails DisplayResults.readDetails DisplayResults.readCounts
  simp only [hread, hd, ht]
  simp

/-- Instance of `fetchEventDetails_tally_failure` at poll 1 of `tallyFailingContract`,
starting from the view that shows poll 0. -/
theorem fetchEventDetails_tally_failure_witness :
    (DisplayResults.fetchEventDetails demoLocale tallyFailingContract 1
        showingPollZero).state.voteCounts = showingPollZero.voteCounts :=
  (fetchEventDetails_tally_failure demoLocale tallyFailingContract 1 showingPollZero
    { title := "Trip", options := ["Sea", "Hills", "Town"], startTime := 300, endTime := 400 }
    1 (by decide) (by decide) (by decide) (by decide) (by decide)).1

/-- C6: when any gateway read of a fetch fails (the summary read, or one of
the tally reads), the stored tally list after the fetch is exactly the list
stored before it. -/
theorem fetchEventDetails_failure_keeps_tallies (toLocaleString : Int → String) (c : Contract)
    (p : Int) (s : ResultsState)
    (hfail : c.getVotingEventDetails p = none ∨
      ∃ raw, c.getVotingEventDetails p = some raw ∧
        ∃ i, i < raw.options.length ∧ c.getVoteCount p i = none) :
    (DisplayResults.fetchEventDetails toLocaleString c p s).state.voteCounts = s.voteCounts := by
  rcases hfail with hnone | ⟨raw, hread, i, hi, hfail⟩
  · unfold DisplayResults.fetchEventDetails DisplayResults.readDetails
    simp only [hnone]
  · have ht := tallies_none_of_read c p raw i hi hfail
    unfold DisplayResults.fetchEventDetails DisplayResults.readDetails
      DisplayResults.readCounts
    cases hd : eventDetailsOf toLocaleString raw with
    | none => simp only [hread, hd]
    | some d => simp only [hread, hd, ht]

/-- Instance of `fetchEventDetails_failure_keeps_tallies` at poll 1 of
`tallyFailingContract`, starting from the view that shows poll 0. -/
theorem fetchEventDetails_failure_keeps_tallies_witness :
    (DisplayResults.fetchEventDetails demoLocale tallyFailingContract 1
        showingPollZero).state.voteCounts = [3, 5] :=
  fetchEventDetails_failure_keeps_tallies demoLocale tallyFailingContract 1 showingPollZero
    (Or.inr ⟨{ title := "Trip", options := ["Sea", "Hills", "Town"], startTime := 300,
               endTime := 400 }, by decide, 1, by decide, by decide⟩)

/-! ## App: a session that never connects -/

/-- C9: when identity acquisition fails before a contract is bound (no
injected wallet, the account request rejected, or the address lookup
failing), `init` leaves account and contract absent and the event count at 0
and issues no gateway call; with that absent contract `createEvent` and
`castVote` issue no call and leave their state as it was, and the fetch
effects of `CastVote` and `DisplayResults` issue no read and leave their
state as it was. -/
theorem disconnected_session_issues_no_gateway_call (ethereum : Option Ethereum)
    (votingContract : Contract) (parseDate : String → Option Int)
    (toLocaleString : Int → String) (d : Draft) (cs : CastVoteState) (rs : ResultsState)
    (hfail : ethereum = none ∨
      ∃ eth, ethereum = some eth ∧ (eth.requestAccounts = false ∨ eth.getAddress = none)) :
    (VotingPlatform.init ethereum votingContract AppState.initial).state.account = none ∧
      (VotingPlatform.init ethereum votingContract AppState.initial).state.contract.isNone
        = true ∧
      (VotingPlatform.init ethereum votingContract AppState.initial).state.eventCount = 0 ∧
      (VotingPlatform.init ethereum votingContract AppState.initial).calls = [] ∧
      (createEvent parseDate
        (VotingPlatform.init ethereum votingContract AppState.initial).state.contract d).calls
        = [] ∧
      (createEvent parseDate
        (VotingPlatform.init ethereum votingContract AppState.initial).state.contract d).state
        = d ∧
      (CastVote.castVote
        (VotingPlatform.init ethereum votingContract AppState.initial).state.contract cs).calls
        = [] ∧
      (CastVote.castVote
        (VotingPlatform.init ethereum votingContract AppState.initial).state.contract cs).state
        = cs ∧
      (CastVote.effect toLocaleString
        (VotingPlatform.init ethereum votingContract AppState.initial).state.contract cs).calls
        = [] ∧
      (CastVote.effect toLocaleString
        (VotingPlatform.init ethereum votingContract AppState.initial).state.contract cs).state
        = cs ∧
      (DisplayResults.effect toLocaleString
        (VotingPlatform.init ethereum votingContract AppState.initial).state.contract rs).calls
        = [] ∧
      (DisplayResults.effect toLocaleString
        (VotingPlatform.init ethereum votingContract AppState.initial).state.contract rs).state
        = rs := by
  have hinit : (VotingPlatform.init ethereum votingContract AppState.initial).state
        = AppState.initial ∧
      (VotingPlatform.init ethereum votingContract AppState.initial).calls = [] := by
    rcases hfail with hnone | ⟨eth, hsome, hreq | haddr⟩
    · subst hnone
      exact ⟨rfl, rfl⟩
    · subst hsome
      simp [VotingPlatform.init, hreq]
    · subst hsome
      cases hr : eth.requestAccounts <;> simp [VotingPlatform.init, hr, haddr]
  obtain ⟨hstate, hcalls⟩ := hinit
  rw [hstate, hcalls]
  simp [AppState.initial, createEvent, CastVote.castVote, CastVote.effect,
    DisplayResults.effect]

/-- Instance of `disconnected_session_issues_no_gateway_call` at a wallet whose account
request is rejected. -/
theorem disconnected_session_issues_no_gateway_call_witness :
    (VotingPlatform.init (some { requestAccounts := false, getAddress := some "0xabc" })
        demoContract AppState.initial).calls = [] ∧
      (createEvent (parseDateTimeLocal 0)
        (VotingPlatform.init (some { requestAccounts := false, getAddress := some "0xabc" })
          demoContract AppState.initial).state.contract
        (Draft.mk "T" ["A", "B"] "2025-01-01T00:00" "2025-01-02T00:00")).calls = [] :=
  ⟨(disconnected_session_issues_no_gateway_call
      (some { requestAccounts := false, getAddress := some "0xabc" }) demoContract
      (parseDateTimeLocal 0) demoLocale
      (Draft.mk "T" ["A", "B"] "2025-01-01T00:00" "2025-01-02T00:00")
      CastVoteState.initial ResultsState.initial
      (Or.inr ⟨_, rfl, Or.inl rfl⟩)).2.2.2.1,
   (disconnected_session_issues_no_gateway_call
      (some { requestAccounts := false, getAddress := some "0xabc" }) demoContract
      (parseDateTimeLocal 0) demoLocale
      (Draft.mk "T" ["A", "B"] "2025-01-01T00:00" "2025-01-02T00:00")
      CastVoteState.initial ResultsState.initial
      (Or.inr ⟨_, rfl, Or.inl rfl⟩)).2.2.2.2.1⟩

/-! ## DisplayResults: two fetches in flight -/

/-- C7 (refuted as stated): the fetch of poll 0 is in flight, the id changes
to 1 and the fetch of poll 1 starts; poll 1's fetch completes first, then
poll 0's.  The view ends with `eventId = 1` while it displays the summary and
the tallies of poll 0: the late completion is not discarded. -/
theorem displayResults_stale_completion_overwrites :
    (DisplayResults.run demoLocale demoContract
        { state := ResultsState.initial, pending := [Suspended.atDetails 0] }
        [ResultsEvent.changeEventId 1, ResultsEvent.settle 1, ResultsEvent.settle 1,
         ResultsEvent.settle 0, ResultsEvent.settle 0]) =
      { state := { showingPollZero with eventId := 1 }, pending := [] } ∧
    showingPollZero.eventDetails ≠
      (DisplayResults.fetchEventDetails demoLocale demoContract 1
        ResultsState.initial).state.eventDetails ∧
    showingPollZero.voteCounts ≠
      (DisplayResults.fetchEventDetails demoLocale demoContract 1
        ResultsState.initial).state.voteCounts := by
  decide

theorem twoInFlight_settle (toLocaleString : Int → String) (c : Contract)
    (s : ResultsState) (p1 p2 : Int) (raw1 raw2 : RawDetails) (d1 d2 : EventDetails)
    (n1 n2 : List Nat)
    (hr1 : c.getVotingEventDetails p1 = some raw1)
    (hr2 : c.getVotingEventDetails p2 = some raw2)
    (hd1 : eventDetailsOf toLocaleString raw1 = some d1)
    (hd2 : eventDetailsOf toLocaleString raw2 = some d2)
    (ht1 : DisplayResults.tallies c p1 raw1 = some n1)
    (ht2 : DisplayResults.tallies c p2 raw2 = some n2)
    (v : ResultsView) (k : Nat)
    (h : DisplayResults.TwoInFlight s p1 p2 raw1 raw2 d1 d2 n1 n2 v) :
    DisplayResults.TwoInFlight s p1 p2 raw1 raw2 d1 d2 n1 n2
      (DisplayResults.step toLocaleString c v (ResultsEvent.settle k)) := by
  obtain ⟨⟨eid, ed, vc⟩, pend⟩ := v
  obtain ⟨hid, hcases⟩ := h
  simp only at hid hcases
  subst hid
  rcases hcases with ⟨hp, he, hv⟩ | ⟨hp, he, hv⟩ | ⟨hp, he, hv⟩ | ⟨hp, he, hv⟩ | ⟨hp, he, hv⟩ |
    ⟨hp, he, hv⟩ | ⟨hp, he, hv⟩ | ⟨hp, he, hv⟩ | ⟨hp, he, hv⟩ <;>
  subst hp <;>
  rcases k with _ | _ | k <;>
  simp [DisplayResults.TwoInFlight, DisplayResults.step, DisplayResults.readDetails,
    DisplayResults.readCounts, hr1, hr2, hd1, hd2, ht1, ht2, he, hv]

theorem twoInFlight_run (toLocaleString : Int → String) (c : Contract)
    (s : ResultsState) (p1 p2 : Int) (raw1 raw2 : RawDetails) (d1 d2 : EventDetails)
    (n1 n2 : List Nat)
    (hr1 : c.getVotingEventDetails p1 = some raw1)
    (hr2 : c.getVotingEventDetails p2 = some raw2)
    (hd1 : eventDetailsOf toLocaleString raw1 = some d1)
    (hd2 : eventDetailsOf toLocaleString raw2 = some d2)
    (ht1 : DisplayResults.tallies c p1 raw1 = some n1)
    (ht2 : DisplayResults.tallies c p2 raw2 = some n2)
    (ks : List Nat) :
    ∀ v, DisplayResults.TwoInFlight s p1 p2 raw1 raw2 d1 d2 n1 n2 v →
      DisplayResults.TwoInFlight s p1 p2 raw1 raw2 d1 d2 n1 n2
        (DisplayResults.run toLocaleString c v (ks.map ResultsEvent.settle)) := by
  induction ks with
  | nil => intro v h; exact h
  | cons k rest ih =>
    intro v h
    have h1 := twoInFlight_settle toLocaleString c s p1 p2 raw1 raw2 d1 d2 n1 n2
      hr1 hr2 hd1 hd2 ht1 ht2 v k h
    exact ih _ h1
theorem displayResults_run_concat (toLocaleString : Int → String) (c : Contract)
    (v : ResultsView) (es : List ResultsEvent) (e : ResultsEvent) :
    DisplayResults.run toLocaleString c v (es ++ [e]) =
      DisplayResults.step toLocaleString c (DisplayResults.run toLocaleString c v es) e := by
  simp [DisplayResults.run, List.foldl_append]

/-- What a settlement does to the two displayed cells, by the run it resumes. -/
theorem displayResults_step_settle (toLocaleString : Int → String) (c : Contract)
    (v : ResultsView) (k : Nat) :
    (v.pending.get? k = none ∧
      DisplayResults.step toLocaleString c v (ResultsEvent.settle k) = v) ∨
    (∃ id, v.pending.get? k = some (Suspended.atDetails id) ∧
      (c.getVotingEventDetails id).bind (eventDetailsOf toLocaleString) = none ∧
      (DisplayResults.step toLocaleString c v (ResultsEvent.settle k)).state = v.state) ∨
    (∃ id raw d, v.pending.get? k = some (Suspended.atDetails id) ∧
      c.getVotingEventDetails id = some raw ∧ eventDetailsOf toLocaleString raw = some d ∧
      (DisplayResults.step toLocaleString c v (ResultsEvent.settle k)).state =
        { v.state with eventDetails := some d }) ∨
    (∃ id raw, v.pending.get? k = some (Suspended.atCounts id raw) ∧
      DisplayResults.tallies c id raw = none ∧
      (DisplayResults.step toLocaleString c v (ResultsEvent.settle k)).state = v.state) ∨
    (∃ id raw n, v.pending.get? k = some (Suspended.atCounts id raw) ∧
      DisplayResults.tallies c id raw = some n ∧
      (DisplayResults.step toLocaleString c v (ResultsEvent.settle k)).state =
        { v.state with voteCounts := n }) := by
  cases hk : v.pending.get? k with
  | none =>
    left
    exact ⟨rfl, by simp only [DisplayResults.step, hk]⟩
  | some susp =>
    right
    cases susp with
    | atDetails id =>
      cases hr : c.getVotingEventDetails id with
      | none =>
        left
        exact ⟨id, rfl, by simp [hr],
          by simp only [DisplayResults.step, hk, DisplayResults.readDetails, hr]⟩
      | some raw =>
        cases hd : eventDetailsOf toLocaleString raw with
        | none =>
          left
          exact ⟨id, rfl, by simp [hr, hd],
            by simp only [DisplayResults.step, hk, DisplayResults.readDetails, hr, hd]⟩
        | some d =>
          right; left
          exact ⟨id, raw, d, rfl, hr, hd,
            by simp only [DisplayResults.step, hk, DisplayResults.readDetails, hr, hd]⟩
    | atCounts id raw =>
      right; right
      cases ht : DisplayResults.tallies c id raw with
      | none =>
        left
        exact ⟨id, raw, rfl, ht,
          by simp only [DisplayResults.step, hk, DisplayResults.readCounts, ht]⟩
      | some n =>
        right
        exact ⟨id, raw, n, rfl, ht,
          by simp only [DisplayResults.step, hk, DisplayResults.readCounts, ht]⟩

theorem displayResults_step_change (toLocaleString : Int → String) (c : Contract)
    (v : ResultsView) (n : Int) :
    (DisplayResults.step toLocaleString c v (ResultsEvent.changeEventId n)).state.eventDetails
        = v.state.eventDetails ∧
      (DisplayResults.step toLocaleString c v (ResultsEvent.changeEventId n)).state.voteCounts
        = v.state.voteCounts := by
  by_cases hn : n = v.state.eventId
  · simp [DisplayResults.step, hn]
  · simp [DisplayResults.step, hn]

theorem summaryByLastRead_extend (toLocaleString : Int → String) (c : Contract)
    (v0 : ResultsView) (es : List ResultsEvent) (e : ResultsEvent) (d : EventDetails)
    (hfail : ∀ k2 id2, e = ResultsEvent.settle k2 →
      (DisplayResults.run toLocaleString c v0 es).pending.get? k2
        = some (Suspended.atDetails id2) →
      (c.getVotingEventDetails id2).bind (eventDetailsOf toLocaleString) = none)
    (h : DisplayResults.SummaryByLastRead toLocaleString c v0 es d) :
    DisplayResults.SummaryByLastRead toLocaleString c v0 (es ++ [e]) d := by
  obtain ⟨pre, k, post, id, raw, heq, hk, hr, hd, hlast⟩ := h
  refine ⟨pre, k, post ++ [e], id, raw, ?_, hk, hr, hd, ?_⟩
  · rw [heq]
    simp
  · intro q k2 id2 hq hpend
    rcases List.prefix_concat_iff.mp hq with hq1 | hq1
    · obtain ⟨hq2, he⟩ := List.append_inj' hq1 rfl
      subst hq2
      have he2 : e = ResultsEvent.settle k2 := by
        simpa using he.symm
      rw [← heq] at hpend
      exact hfail k2 id2 he2 hpend
    · exact hlast q k2 id2 hq1 hpend

theorem talliesByLastJoin_extend (toLocaleString : Int → String) (c : Contract)
    (v0 : ResultsView) (es : List ResultsEvent) (e : ResultsEvent) (n : List Nat)
    (hfail : ∀ k2 id2 raw2, e = ResultsEvent.settle k2 →
      (DisplayResults.run toLocaleString c v0 es).pending.get? k2
        = some (Suspended.atCounts id2 raw2) →
      DisplayResults.tallies c id2 raw2 = none)
    (h : DisplayResults.TalliesByLastJoin toLocaleString c v0 es n) :
    DisplayResults.TalliesByLastJoin toLocaleString c v0 (es ++ [e]) n := by
  obtain ⟨pre, k, post, id, raw, heq, hk, ht, hlast⟩ := h
  refine ⟨pre, k, post ++ [e], id, raw, ?_, hk, ht, ?_⟩
  · rw [heq]
    simp
  · intro q k2 id2 raw2 hq hpend
    rcases List.prefix_concat_iff.mp hq with hq1 | hq1
    · obtain ⟨hq2, he⟩ := List.append_inj' hq1 rfl
      subst hq2
      have he2 : e = ResultsEvent.settle k2 := by
        simpa using he.symm
      rw [← heq] at hpend
      exact hfail k2 id2 raw2 he2 hpend
    · exact hlast q k2 id2 raw2 hq1 hpend

theorem displayResults_summary_history (toLocaleString : Int → String) (c : Contract)
    (v0 : ResultsView) (events : List ResultsEvent) :
    (DisplayResults.run toLocaleString c v0 events).state.eventDetails
        = v0.state.eventDetails ∨
      ∃ d, (DisplayResults.run toLocaleString c v0 events).state.eventDetails = some d ∧
        DisplayResults.SummaryByLastRead toLocaleString c v0 events d := by
  induction events using List.reverseRecOn with
  | nil => exact Or.inl rfl
  | append_singleton es e ih =>
    rw [displayResults_run_concat]
    cases e with
    | changeEventId n =>
      rw [(displayResults_step_change toLocaleString c _ n).1]
      rcases ih with h0 | ⟨d, hd, hs⟩
      · exact Or.inl h0
      · refine Or.inr ⟨d, hd, summaryByLastRead_extend toLocaleString c v0 es _ d ?_ hs⟩
        intro k2 id2 he
        cases he
    | settle k =>
      rcases displayResults_step_settle toLocaleString c
          (DisplayResults.run toLocaleString c v0 es) k with
        ⟨hk, hst⟩ | ⟨id, hk, hf, hst⟩ | ⟨id, raw, d, hk, hr, hd, hst⟩ |
        ⟨id, raw, hk, _, hst⟩ | ⟨id, raw, n, hk, _, hst⟩
      · rw [hst]
        rcases ih with h0 | ⟨d, hd, hs⟩
        · exact Or.inl h0
        · refine Or.inr ⟨d, hd, summaryByLastRead_extend toLocaleString c v0 es _ d ?_ hs⟩
          intro k2 id2 he hp
          cases he
          rw [hk] at hp
          cases hp
      · rw [hst]
        rcases ih with h0 | ⟨d, hd, hs⟩
        · exact Or.inl h0
        · refine Or.inr ⟨d, hd, summaryByLastRead_extend toLocaleString c v0 es _ d ?_ hs⟩
          intro k2 id2 he hp
          cases he
          rw [hk] at hp
          cases hp
          exact hf
      · rw [hst]
        refine Or.inr ⟨d, rfl, es, k, [], id, raw, rfl, hk, hr, hd, ?_⟩
        intro q k2 id2 hq
        have := List.prefix_nil.mp hq
        simp at this
      · rw [hst]
        rcases ih with h0 | ⟨d, hd, hs⟩
        · exact Or.inl h0
        · refine Or.inr ⟨d, hd, summaryByLastRead_extend toLocaleString c v0 es _ d ?_ hs⟩
          intro k2 id2 he hp
          cases he
          rw [hk] at hp
          cases hp
      · rw [hst]
        rcases ih with h0 | ⟨d, hd, hs⟩
        · exact Or.inl h0
        · refine Or.inr ⟨d, hd, summaryByLastRead_extend toLocaleString c v0 es _ d ?_ hs⟩
          intro k2 id2 he hp
          cases he
          rw [hk] at hp
          cases hp

theorem displayResults_tallies_history (toLocaleString : Int → String) (c : Contract)
    (v0 : ResultsView) (events : List ResultsEvent) :
    (DisplayResults.run toLocaleString c v0 events).state.voteCounts = v0.state.voteCounts ∨
      DisplayResults.TalliesByLastJoin toLocaleString c v0 events
        (DisplayResults.run toLocaleString c v0 events).state.voteCounts := by
  induction events using List.reverseRecOn with
  | nil => exact Or.inl rfl
  | append_singleton es e ih =>
    rw [displayResults_run_concat]
    cases e with
    | changeEventId n =>
      rw [(displayResults_step_change toLocaleString c _ n).2]
      rcases ih with h0 | hs
      · exact Or.inl h0
      · refine Or.inr (talliesByLastJoin_extend toLocaleString c v0 es _ _ ?_ hs)
        intro k2 id2 raw2 he
        cases he
    | settle k =>
      rcases displayResults_step_settle toLocaleString c
          (DisplayResults.run toLocaleString c v0 es) k with
        ⟨hk, hst⟩ | ⟨id, hk, _, hst⟩ | ⟨id, raw, d, hk, _, _, hst⟩ |
        ⟨id, raw, hk, hf, hst⟩ | ⟨id, raw, n, hk, ht, hst⟩
      · rw [hst]
        rcases ih with h0 | hs
        · exact Or.inl h0
        · refine Or.inr (talliesByLastJoin_extend toLocaleString c v0 es _ _ ?_ hs)
          intro k2 id2 raw2 he hp
          cases he
          rw [hk] at hp
          cases hp
      · rw [hst]
        rcases ih with h0 | hs
        · exact Or.inl h0
        · refine Or.inr (talliesByLastJoin_extend toLocaleString c v0 es _ _ ?_ hs)
          intro k2 id2 raw2 he hp
          cases he
          rw [hk] at hp
          cases hp
      · rw [hst]
        rcases ih with h0 | hs
        · exact Or.inl h0
        · refine Or.inr (talliesByLastJoin_extend toLocaleString c v0 es _ _ ?_ hs)
          intro k2 id2 raw2 he hp
          cases he
          rw [hk] at hp
          cases hp
      · rw [hst]
        rcases ih with h0 | hs
        · exact Or.inl h0
        · refine Or.inr (talliesByLastJoin_extend toLocaleString c v0 es _ _ ?_ hs)
          intro k2 id2 raw2 he hp
          cases he
          rw [hk] at hp
          cases hp
          exact hf
      · rw [hst]
        refine Or.inr ⟨es, k, [], id, raw, rfl, hk, ht, ?_⟩
        intro q k2 id2 raw2 hq
        have := List.prefix_nil.mp hq
        simp at this

/-- C7 (amended): no completion is discarded.  A settled summary read writes
the displayed summary and a settled join of tally reads writes the tally
list, each whatever id is selected at that moment.  With the fetch of `p1`
in flight, the id changed to a different `p2`, the fetch of `p2` started and
every read of both succeeding, the view after both fetches finish has
`eventId = p2`, the summary of the fetch whose summary read settled last and
the tallies of the fetch whose tally reads settled last.  The six orders of
the four settlements are listed (D and C for the summary and the tally
settlement of a fetch): D1 C1 D2 C2 and D1 D2 C1 C2 end on the summary and
tallies of `p2`; D2 C2 D1 C1 and D2 D1 C2 C1 on those of `p1`; D1 D2 C2 C1 on
the summary of `p2` with the tallies of `p1`; D2 D1 C1 C2 on the summary of
`p1` with the tallies of `p2`.  Every sequence of settlements after which no
run is suspended ends in one of these four states.  In general, from every
view and after every sequence of events, the displayed summary is the one of
the starting view or the gateway's summary of the id captured by the last
summary read that settled with a summary, and the tally list is the one of
the starting view or the list of the id captured by the last join of tally
reads that settled with a list. -/
theorem displayResults_settlement_order_decides (toLocaleString : Int → String)
    (c : Contract) (s : ResultsState) (p1 p2 : Int) (raw1 raw2 : RawDetails)
    (d1 d2 : EventDetails) (n1 n2 : List Nat)
    (hne : p1 ≠ p2) (hsel : s.eventId = p1)
    (hr1 : c.getVotingEventDetails p1 = some raw1)
    (hr2 : c.getVotingEventDetails p2 = some raw2)
    (hd1 : eventDetailsOf toLocaleString raw1 = some d1)
    (hd2 : eventDetailsOf toLocaleString raw2 = some d2)
    (ht1 : DisplayResults.tallies c p1 raw1 = some n1)
    (ht2 : DisplayResults.tallies c p2 raw2 = some n2) :
    (∀ (v : ResultsView) (k : Nat) (id : Int) (raw : RawDetails) (d : EventDetails),
      v.pending.get? k = some (Suspended.atDetails id) →
      c.getVotingEventDetails id = some raw → eventDetailsOf toLocaleString raw = some d →
      DisplayResults.step toLocaleString c v (ResultsEvent.settle k) =
        { state := { v.state with eventDetails := some d },
          pending := v.pending.set k (Suspended.atCounts id raw) }) ∧
    (∀ (v : ResultsView) (k : Nat) (id : Int) (raw : RawDetails) (n : List Nat),
      v.pending.get? k = some (Suspended.atCounts id raw) →
      DisplayResults.tallies c id raw = some n →
      DisplayResults.step toLocaleString c v (ResultsEvent.settle k) =
        { state := { v.state with voteCounts := n }, pending := v.pending.eraseIdx k }) ∧
    DisplayResults.run toLocaleString c { state := s, pending := [Suspended.atDetails p1] }
        [ResultsEvent.changeEventId p2, ResultsEvent.settle 0, ResultsEvent.settle 0,
         ResultsEvent.settle 0, ResultsEvent.settle 0] =
      { state := { eventId := p2, eventDetails := some d2, voteCounts := n2 }, pending := [] } ∧
    DisplayResults.run toLocaleString c { state := s, pending := [Suspended.atDetails p1] }
        [ResultsEvent.changeEventId p2, ResultsEvent.settle 0, ResultsEvent.settle 1,
         ResultsEvent.settle 0, ResultsEvent.settle 0] =
      { state := { eventId := p2, eventDetails := some d2, voteCounts := n2 }, pending := [] } ∧
    DisplayResults.run toLocaleString c { state := s, pending := [Suspended.atDetails p1] }
        [ResultsEvent.changeEventId p2, ResultsEvent.settle 0, ResultsEvent.settle 1,
         ResultsEvent.settle 1, ResultsEvent.settle 0] =
      { state := { eventId := p2, eventDetails := some d2, voteCounts := n1 }, pending := [] } ∧
    DisplayResults.run toLocaleString c { state := s, pending := [Suspended.atDetails p1] }
        [ResultsEvent.changeEventId p2, ResultsEvent.settle 1, ResultsEvent.settle 0,
         ResultsEvent.settle 0, ResultsEvent.settle 0] =
      { state := { eventId := p2, eventDetails := some d1, voteCounts := n2 }, pending := [] } ∧
    DisplayResults.run toLocaleString c { state := s, pending := [Suspended.atDetails p1] }
        [ResultsEvent.changeEventId p2, ResultsEvent.settle 1, ResultsEvent.settle 0,
         ResultsEvent.settle 1, ResultsEvent.settle 0] =
      { state := { eventId := p2, eventDetails := some d1, voteCounts := n1 }, pending := [] } ∧
    DisplayResults.run toLocaleString c { state := s, pending := [Suspended.atDetails p1] }
        [ResultsEvent.changeEventId p2, ResultsEvent.settle 1, ResultsEvent.settle 1,
         ResultsEvent.settle 0, ResultsEvent.settle 0] =
      { state := { eventId := p2, eventDetails := some d1, voteCounts := n1 }, pending := [] } ∧
    (∀ ks : List Nat,
      (DisplayResults.run toLocaleString c { state := s, pending := [Suspended.atDetails p1] }
        (ResultsEvent.changeEventId p2 :: ks.map ResultsEvent.settle)).pending = [] →
      (DisplayResults.run toLocaleString c { state := s, pending := [Suspended.atDetails p1] }
        (ResultsEvent.changeEventId p2 :: ks.map ResultsEvent.settle)).state.eventId = p2 ∧
      ((DisplayResults.run toLocaleString c { state := s, pending := [Suspended.atDetails p1] }
          (ResultsEvent.changeEventId p2 :: ks.map ResultsEvent.settle)).state.eventDetails
          = some d1 ∨
        (DisplayResults.run toLocaleString c { state := s, pending := [Suspended.atDetails p1] }
          (ResultsEvent.changeEventId p2 :: ks.map ResultsEvent.settle)).state.eventDetails
          = some d2) ∧
      ((DisplayResults.run toLocaleString c { state := s, pending := [Suspended.atDetails p1] }
          (ResultsEvent.changeEventId p2 :: ks.map ResultsEvent.settle)).state.voteCounts = n1 ∨
        (DisplayResults.run toLocaleString c { state := s, pending := [Suspended.atDetails p1] }
          (ResultsEvent.changeEventId p2 :: ks.map ResultsEvent.settle)).state.voteCounts
          = n2)) ∧
    (∀ (v0 : ResultsView) (events : List ResultsEvent),
      (DisplayResults.run toLocaleString c v0 events).state.eventDetails
          = v0.state.eventDetails ∨
        ∃ d, (DisplayResults.run toLocaleString c v0 events).state.eventDetails = some d ∧
          DisplayResults.SummaryByLastRead toLocaleString c v0 events d) ∧
    (∀ (v0 : ResultsView) (events : List ResultsEvent),
      (DisplayResults.run toLocaleString c v0 events).state.voteCounts
          = v0.state.voteCounts ∨
        DisplayResults.TalliesByLastJoin toLocaleString c v0 events
          (DisplayResults.run toLocaleString c v0 events).state.voteCounts) := by
  have hne2 : ¬ p2 = s.eventId := fun h => hne (hsel.symm.trans h.symm)
  have hall : ∀ ks : List Nat,
      (DisplayResults.run toLocaleString c { state := s, pending := [Suspended.atDetails p1] }
        (ResultsEvent.changeEventId p2 :: ks.map ResultsEvent.settle)).pending = [] →
      (DisplayResults.run toLocaleString c { state := s, pending := [Suspended.atDetails p1] }
        (ResultsEvent.changeEventId p2 :: ks.map ResultsEvent.settle)).state.eventId = p2 ∧
      ((DisplayResults.run toLocaleString c { state := s, pending := [Suspended.atDetails p1] }
          (ResultsEvent.changeEventId p2 :: ks.map ResultsEvent.settle)).state.eventDetails
          = some d1 ∨
        (DisplayResults.run toLocaleString c { state := s, pending := [Suspended.atDetails p1] }
          (ResultsEvent.changeEventId p2 :: ks.map ResultsEvent.settle)).state.eventDetails
          = some d2) ∧
      ((DisplayResults.run toLocaleString c { state := s, pending := [Suspended.atDetails p1] }
          (ResultsEvent.changeEventId p2 :: ks.map ResultsEvent.settle)).state.voteCounts = n1 ∨
        (DisplayResults.run toLocaleString c { state := s, pending := [Suspended.atDetails p1] }
          (ResultsEvent.changeEventId p2 :: ks.map ResultsEvent.settle)).state.voteCounts
          = n2) := by
    intro ks hpend
    have hstart : DisplayResults.TwoInFlight s p1 p2 raw1 raw2 d1 d2 n1 n2
        (DisplayResults.step toLocaleString c
          { state := s, pending := [Suspended.atDetails p1] }
          (ResultsEvent.changeEventId p2)) := by
      simp [DisplayResults.TwoInFlight, DisplayResults.step, hne2]
    have hinv := twoInFlight_run toLocaleString c s p1 p2 raw1 raw2 d1 d2 n1 n2
      hr1 hr2 hd1 hd2 ht1 ht2 ks _ hstart
    have hrun : DisplayResults.run toLocaleString c
        { state := s, pending := [Suspended.atDetails p1] }
        (ResultsEvent.changeEventId p2 :: ks.map ResultsEvent.settle) =
        DisplayResults.run toLocaleString c
          (DisplayResults.step toLocaleString c
            { state := s, pending := [Suspended.atDetails p1] }
            (ResultsEvent.changeEventId p2))
          (ks.map ResultsEvent.settle) := rfl
    rw [hrun] at hpend ⊢
    obtain ⟨hid, hcases⟩ := hinv
    refine ⟨hid, ?_⟩
    rcases hcases with ⟨hp, _, _⟩ | ⟨hp, _, _⟩ | ⟨hp, _, _⟩ | ⟨hp, _, _⟩ | ⟨hp, _, _⟩ |
      ⟨hp, _, _⟩ | ⟨hp, _, _⟩ | ⟨hp, _, _⟩ | ⟨_, he, hv⟩
    all_goals first
      | exact ⟨he, hv⟩
      | (rw [hp] at hpend; cases hpend)
  refine ⟨?g1, ?g2, ?s1, ?s2, ?s3, ?s4, ?s5, ?s6, hall,
    displayResults_summary_history toLocaleString c,
    displayResults_tallies_history toLocaleString c⟩
  case g1 =>
    intro v k id raw d hk hr hd
    simp only [DisplayResults.step, hk, DisplayResults.readDetails, hr, hd]
  case g2 =>
    intro v k id raw n hk ht
    simp only [DisplayResults.step, hk, DisplayResults.readCounts, ht]
  all_goals
    simp [DisplayResults.run, DisplayResults.step, hne2, DisplayResults.readDetails,
      DisplayResults.readCounts, hr1, hr2, hd1, hd2, ht1, ht2]

/-- Instance of `displayResults_settlement_order_decides` at polls 0 and 1 of the gateway
`demoContract`, for the order D2 D1 C1 C2: the view ends on the summary of
poll 0 with the tallies of poll 1. -/
theorem displayResults_settlement_order_decides_witness :
    DisplayResults.run demoLocale demoContract
        { state := ResultsState.initial, pending := [Suspended.atDetails 0] }
        [ResultsEvent.changeEventId 1, ResultsEvent.settle 1, ResultsEvent.settle 0,
         ResultsEvent.settle 0, ResultsEvent.settle 0] =
      { state := { eventId := 1,
                   eventDetails := some { title := "Lunch", options := ["Yes", "No"],
                                          startTime := "early", endTime := "early" },
                   voteCounts := [7, 8, 9] },
        pending := [] } :=
  (displayResults_settlement_order_decides demoLocale demoContract ResultsState.initial 0 1
    { title := "Lunch", options := ["Yes", "No"], startTime := 100, endTime := 200 }
    { title := "Trip", options := ["Sea", "Hills", "Town"], startTime := 300, endTime := 400 }
    { title := "Lunch", options := ["Yes", "No"], startTime := "early", endTime := "early" }
    { title := "Trip", options := ["Sea", "Hills", "Town"], startTime := "late",
      endTime := "late" }
    [3, 5] [7, 8, 9]
    (by decide) (by decide) (by decide) (by decide) (by decide) (by decide) (by decide)
    (by decide)).2.2.2.2.2.1

/-! ## CastVote: the selected option across poll changes -/

theorem CastVote.consistent_mono (toLocaleString : Int → String) (c : Contract)
    (ids ids2 : List Int) (v : CastVoteView) (hsub : ∀ id ∈ ids, id ∈ ids2)
    (h : CastVote.Consistent toLocaleString c ids v) :
    CastVote.Consistent toLocaleString c ids2 v := by
  obtain ⟨hp, hs, hd⟩ := h
  refine ⟨fun id hid => hsub id (hp id hid), ?_, ?_⟩
  · rcases hs with h0 | ⟨id, hid, raw, hr, hlt⟩
    · exact Or.inl h0
    · exact Or.inr ⟨id, hsub id hid, raw, hr, hlt⟩
  · intro d hdd
    obtain ⟨id, hid, raw, hr, he⟩ := hd d hdd
    exact ⟨id, hsub id hid, raw, hr, he⟩

theorem CastVote.fetch_state (toLocaleString : Int → String) (c : Contract) (id : Int)
    (s : CastVoteState) :
    (CastVote.fetchEventDetails toLocaleString c id s).state = s ∨
      ∃ raw d, c.getVotingEventDetails id = some raw ∧
        eventDetailsOf toLocaleString raw = some d ∧
        (CastVote.fetchEventDetails toLocaleString c id s).state =
          { s with eventDetails := some d } := by
  unfold CastVote.fetchEventDetails
  cases hr : c.getVotingEventDetails id with
  | none => exact Or.inl rfl
  | some raw =>
    cases hd : eventDetailsOf toLocaleString raw with
    | none =>
      simp only [hd]
      exact Or.inl trivial
    | some d =>
      simp only [hd]
      exact Or.inr ⟨raw, d, rfl, hd, rfl⟩

theorem CastVote.step_consistent (toLocaleString : Int → String) (c : Contract)
    (ids : List Int) (v : CastVoteView) (e : CastVoteEvent)
    (h : CastVote.Consistent toLocaleString c ids v) :
    CastVote.Consistent toLocaleString c (ids ++ CastVote.requested [e])
      (CastVote.step toLocaleString c v e) := by
  have hsub : ∀ id ∈ ids, id ∈ ids ++ CastVote.requested [e] :=
    fun id hid => List.mem_append_left _ hid
  have hmono := CastVote.consistent_mono toLocaleString c ids _ v hsub h
  cases e with
  | changeEventId n =>
    by_cases hn : n = v.state.eventId
    · have hstep : CastVote.step toLocaleString c v (CastVoteEvent.changeEventId n) = v := by
        simp [CastVote.step, hn]
      rw [hstep]
      exact hmono
    · obtain ⟨hp, hs, hd⟩ := hmono
      simp only [CastVote.step, hn, if_false]
      refine ⟨?_, hs, hd⟩
      intro id hid
      rcases List.mem_append.mp hid with h1 | h1
      · exact hp id h1
      · simp only [List.mem_singleton] at h1
        subst h1
        simp [CastVote.requested]
  | selectOption index =>
    cases hdet : v.state.eventDetails with
    | none =>
      have hstep : CastVote.step toLocaleString c v (CastVoteEvent.selectOption index) = v := by
        simp [CastVote.step, hdet]
      rw [hstep]
      exact hmono
    | some d =>
      by_cases hlt : index < d.options.length
      · obtain ⟨hp, hs, hd⟩ := hmono
        simp only [CastVote.step, hdet, hlt, if_true]
        obtain ⟨id, hid, raw, hr, he⟩ := hd d hdet
        refine ⟨hp, Or.inr ⟨id, hid, raw, hr, ?_⟩, ?_⟩
        · rw [← eventDetailsOf_options toLocaleString raw d he]
          exact hlt
        · intro d2 hd2
          exact hd d2 (hdet ▸ hd2)
      · have hstep :
            CastVote.step toLocaleString c v (CastVoteEvent.selectOption index) = v := by
          simp [CastVote.step, hdet, hlt]
        rw [hstep]
        exact hmono
  | settle k =>
    cases hk : v.pending.get? k with
    | none =>
      have hstep : CastVote.step toLocaleString c v (CastVoteEvent.settle k) = v := by
        simp only [CastVote.step, hk]
      rw [hstep]
      exact hmono
    | some id =>
      obtain ⟨hp, hs, hd⟩ := hmono
      have hid : id ∈ v.pending := List.get?_mem hk
      have hstep : CastVote.step toLocaleString c v (CastVoteEvent.settle k) =
          { state := (CastVote.fetchEventDetails toLocaleString c id v.state).state,
            pending := v.pending.eraseIdx k } := by
        simp only [CastVote.step, hk]
      rw [hstep]
      refine ⟨?_, ?_, ?_⟩
      · intro j hj
        exact hp j (List.mem_of_mem_eraseIdx hj)
      · rcases CastVote.fetch_state toLocaleString c id v.state with h1 | ⟨raw, d, _, _, h1⟩
        · simp only [h1]; exact hs
        · simp only [h1]; exact hs
      · rcases CastVote.fetch_state toLocaleString c id v.state with h1 | ⟨raw, d, hr, he, h1⟩
        · simp only [h1]; exact hd
        · simp only [h1]
          intro d2 hd2
          simp only [Option.some.injEq] at hd2
          subst hd2
          exact ⟨id, hp id hid, raw, hr, he⟩

theorem CastVote.requested_cons (e : CastVoteEvent) (rest : List CastVoteEvent) :
    CastVote.requested (e :: rest) = CastVote.requested [e] ++ CastVote.requested rest := by
  cases e <;> simp [CastVote.requested]

theorem CastVote.run_consistent (toLocaleString : Int → String) (c : Contract)
    (events : List CastVoteEvent) :
    ∀ (ids : List Int) (v : CastVoteView), CastVote.Consistent toLocaleString c ids v →
      CastVote.Consistent toLocaleString c (ids ++ CastVote.requested events)
        (CastVote.run toLocaleString c v events) := by
  induction events with
  | nil =>
    intro ids v h
    simpa [CastVote.run, CastVote.requested] using h
  | cons e rest ih =>
    intro ids v h
    have h1 := CastVote.step_consistent toLocaleString c ids v e h
    have h2 := ih _ _ h1
    rw [CastVote.requested_cons, ← List.append_assoc]
    simpa [CastVote.run] using h2

theorem castVote_run_concat (toLocaleString : Int → String) (c : Contract) (v : CastVoteView)
    (es : List CastVoteEvent) (e : CastVoteEvent) :
    CastVote.run toLocaleString c v (es ++ [e]) =
      CastVote.step toLocaleString c (CastVote.run toLocaleString c v es) e := by
  simp [CastVote.run, List.foldl_append]

theorem castVote_requested_append (a b : List CastVoteEvent) :
    CastVote.requested (a ++ b) = CastVote.requested a ++ CastVote.requested b := by
  induction a with
  | nil => simp [CastVote.requested]
  | cons e rest ih =>
    rw [List.cons_append, CastVote.requested_cons, ih, CastVote.requested_cons e rest,
      List.append_assoc]

theorem castVote_step_change (toLocaleString : Int → String) (c : Contract) (v : CastVoteView)
    (n : Int) :
    (CastVote.step toLocaleString c v (CastVoteEvent.changeEventId n)).state.selectedOption
        = v.state.selectedOption ∧
      (CastVote.step toLocaleString c v (CastVoteEvent.changeEventId n)).state.eventDetails
        = v.state.eventDetails ∧
      (CastVote.step toLocaleString c v (CastVoteEvent.changeEventId n)).state.eventId = n := by
  by_cases hn : n = v.state.eventId
  · simp [CastVote.step, hn]
  · simp [CastVote.step, hn]

theorem castVote_step_select (toLocaleString : Int → String) (c : Contract) (v : CastVoteView)
    (i : Nat) :
    (CastVote.step toLocaleString c v (CastVoteEvent.selectOption i)).state.eventDetails
        = v.state.eventDetails ∧
      (CastVote.step toLocaleString c v (CastVoteEvent.selectOption i)).state.eventId
        = v.state.eventId := by
  cases hdet : v.state.eventDetails with
  | none => simp [CastVote.step, hdet]
  | some d =>
    by_cases hlt : i < d.options.length
    · simp [CastVote.step, hdet, hlt]
    · simp [CastVote.step, hdet, hlt]

theorem castVote_step_settle (toLocaleString : Int → String) (c : Contract) (v : CastVoteView)
    (k : Nat) :
    (CastVote.step toLocaleString c v (CastVoteEvent.settle k)).state.selectedOption
        = v.state.selectedOption ∧
      (CastVote.step toLocaleString c v (CastVoteEvent.settle k)).state.eventId
        = v.state.eventId := by
  cases hk : v.pending.get? k with
  | none => simp only [CastVote.step, hk, and_self]
  | some id =>
    simp only [CastVote.step, hk]
    rcases CastVote.fetch_state toLocaleString c id v.state with h1 | ⟨raw, d, _, _, h1⟩
    · simp only [h1, and_self]
    · simp only [h1, and_self]

/-- An event that leaves the selection as it was keeps the record of the pick. -/
theorem pickedWhenOffered_extend (toLocaleString : Int → String) (c : Contract)
    (es : List CastVoteEvent) (e : CastVoteEvent) (i : Nat)
    (hsame :
      (CastVote.run toLocaleString c CastVoteView.mounted (es ++ [e])).state.selectedOption = i)
    (h : i = 0 ∨ CastVote.PickedWhenOffered toLocaleString c es i) :
    (CastVote.run toLocaleString c CastVoteView.mounted (es ++ [e])).state.selectedOption = 0 ∨
      CastVote.PickedWhenOffered toLocaleString c (es ++ [e])
        (CastVote.run toLocaleString c CastVoteView.mounted (es ++ [e])).state.selectedOption := by
  rw [hsame]
  rcases h with h0 | ⟨pre, post, d, heq, hd, hlt, hstay⟩
  · exact Or.inl h0
  · refine Or.inr ⟨pre, post ++ [e], d, ?_, hd, hlt, ?_⟩
    · rw [heq]
      simp
    · intro q hq
      rcases List.prefix_concat_iff.mp hq with hq1 | hq1
      · subst hq1
        have hlist : pre ++ CastVoteEvent.selectOption i :: (post ++ [e]) = es ++ [e] := by
          rw [heq]
          simp
        rw [hlist, hsame]
      · exact hstay q hq1

theorem castVote_picked (toLocaleString : Int → String) (c : Contract)
    (events : List CastVoteEvent) :
    (CastVote.run toLocaleString c CastVoteView.mounted events).state.selectedOption = 0 ∨
      CastVote.PickedWhenOffered toLocaleString c events
        (CastVote.run toLocaleString c CastVoteView.mounted events).state.selectedOption := by
  induction events using List.reverseRecOn with
  | nil => exact Or.inl rfl
  | append_singleton es e ih =>
    cases e with
    | changeEventId n =>
      apply pickedWhenOffered_extend toLocaleString c es _ _ _ ih
      rw [castVote_run_concat]
      exact (castVote_step_change toLocaleString c _ n).1
    | settle k =>
      apply pickedWhenOffered_extend toLocaleString c es _ _ _ ih
      rw [castVote_run_concat]
      exact (castVote_step_settle toLocaleString c _ k).1
    | selectOption i =>
      cases hdet : (CastVote.run toLocaleString c CastVoteView.mounted es).state.eventDetails with
      | none =>
        apply pickedWhenOffered_extend toLocaleString c es _ _ _ ih
        rw [castVote_run_concat]
        simp [CastVote.step, hdet]
      | some d =>
        by_cases hlt : i < d.options.length
        · have hsel : (CastVote.run toLocaleString c CastVoteView.mounted
              (es ++ [CastVoteEvent.selectOption i])).state.selectedOption = i := by
            rw [castVote_run_concat]
            simp [CastVote.step, hdet, hlt]
          rw [hsel]
          refine Or.inr ⟨es, [], d, rfl, hdet, hlt, ?_⟩
          intro q hq
          rw [List.prefix_nil.mp hq]
          exact hsel
        · apply pickedWhenOffered_extend toLocaleString c es _ _ _ ih
          rw [castVote_run_concat]
          simp [CastVote.step, hdet, hlt]

/-- An event that is not a read settling with a summary keeps the record of
the last such read. -/
theorem loadedByLastRead_extend (toLocaleString : Int → String) (c : Contract)
    (es : List CastVoteEvent) (e : CastVoteEvent) (d : EventDetails)
    (hfail : ∀ k2 id2, e = CastVoteEvent.settle k2 →
      (CastVote.run toLocaleString c CastVoteView.mounted es).pending.get? k2 = some id2 →
      (c.getVotingEventDetails id2).bind (eventDetailsOf toLocaleString) = none)
    (h : CastVote.LoadedByLastRead toLocaleString c es d) :
    CastVote.LoadedByLastRead toLocaleString c (es ++ [e]) d := by
  obtain ⟨pre, k, post, id, raw, heq, hk, hid, hr, hd, hlast⟩ := h
  refine ⟨pre, k, post ++ [e], id, raw, ?_, hk, hid, hr, hd, ?_⟩
  · rw [heq]
    simp
  · intro q k2 id2 hq hpend
    rcases List.prefix_concat_iff.mp hq with hq1 | hq1
    · obtain ⟨hq2, he⟩ := List.append_inj' hq1 rfl
      subst hq2
      have he2 : e = CastVoteEvent.settle k2 := by
        simpa using he.symm
      rw [← heq] at hpend
      exact hfail k2 id2 he2 hpend
    · exact hlast q k2 id2 hq1 hpend

theorem castVote_loaded (toLocaleString : Int → String) (c : Contract)
    (events : List CastVoteEvent) :
    ∀ d, (CastVote.run toLocaleString c CastVoteView.mounted events).state.eventDetails
        = some d →
      CastVote.LoadedByLastRead toLocaleString c events d := by
  induction events using List.reverseRecOn with
  | nil =>
    intro d hd
    simp [CastVote.run, CastVoteView.mounted, CastVoteState.initial] at hd
  | append_singleton es e ih =>
    intro d hd
    rw [castVote_run_concat] at hd
    cases e with
    | changeEventId n =>
      rw [(castVote_step_change toLocaleString c _ n).2.1] at hd
      apply loadedByLastRead_extend toLocaleString c es _ d _ (ih d hd)
      intro k2 id2 he
      cases he
    | selectOption i =>
      rw [(castVote_step_select toLocaleString c _ i).1] at hd
      apply loadedByLastRead_extend toLocaleString c es _ d _ (ih d hd)
      intro k2 id2 he
      cases he
    | settle k =>
      cases hk : (CastVote.run toLocaleString c CastVoteView.mounted es).pending.get? k with
      | none =>
        simp only [CastVote.step, hk] at hd
        apply loadedByLastRead_extend toLocaleString c es _ d _ (ih d hd)
        intro k2 id2 he hpend
        cases he
        rw [hk] at hpend
        cases hpend
      | some id =>
        simp only [CastVote.step, hk, CastVote.fetchEventDetails] at hd
        cases hr : c.getVotingEventDetails id with
        | none =>
          simp only [hr] at hd
          apply loadedByLastRead_extend toLocaleString c es _ d _ (ih d hd)
          intro k2 id2 he hpend
          cases he
          rw [hk] at hpend
          cases hpend
          simp [hr]
        | some raw =>
          cases hdet : eventDetailsOf toLocaleString raw with
          | none =>
            simp only [hr, hdet] at hd
            apply loadedByLastRead_extend toLocaleString c es _ d _ (ih d hd)
            intro k2 id2 he hpend
            cases he
            rw [hk] at hpend
            cases hpend
            simp [hr, hdet]
          | some d2 =>
            simp only [hr, hdet, Option.some.injEq] at hd
            subst hd
            have hmounted : CastVote.Consistent toLocaleString c [0] CastVoteView.mounted := by
              refine ⟨?_, Or.inl rfl, ?_⟩
              · intro j hj
                simpa [CastVoteView.mounted] using hj
              · intro d3 hd3
                simp [CastVoteView.mounted, CastVoteState.initial] at hd3
            have hcons := CastVote.run_consistent toLocaleString c es [0]
              CastVoteView.mounted hmounted
            have hmem : id ∈ 0 :: CastVote.requested es :=
              hcons.1 id (List.get?_mem hk)
            refine ⟨es, k, [], id, raw, rfl, hk, hmem, hr, hdet, ?_⟩
            intro q k2 id2 hq
            have := List.prefix_nil.mp hq
            simp at this

theorem castVote_current_id (toLocaleString : Int → String) (c : Contract)
    (events : List CastVoteEvent) :
    (CastVote.run toLocaleString c CastVoteView.mounted events).state.eventId =
      (CastVote.requested events).getLastD 0 := by
  induction events using List.reverseRecOn with
  | nil => rfl
  | append_singleton es e ih =>
    rw [castVote_run_concat, castVote_requested_append]
    cases e with
    | changeEventId n =>
      rw [(castVote_step_change toLocaleString c _ n).2.2]
      simp [CastVote.requested, List.getLastD_concat]
    | selectOption i =>
      rw [(castVote_step_select toLocaleString c _ i).2, ih]
      simp [CastVote.requested]
    | settle k =>
      rw [(castVote_step_settle toLocaleString c _ k).2, ih]
      simp [CastVote.requested]

/-- C8 (refuted as stated): load poll 0, change to poll 1 and load it, pick
its third option, change back to poll 0 and load it.  The view then shows the
two-option summary of poll 0 with `selectedOption = 2`, and `castVote` submits
index 2 for poll 0, an index carried over from poll 1.  Also, right after the
change to poll 1 the loaded summary is still the one of poll 0. -/
theorem castVote_stale_option_index_reachable :
    (CastVote.run demoLocale demoContract CastVoteView.mounted
        [CastVoteEvent.settle 0, CastVoteEvent.changeEventId 1, CastVoteEvent.settle 0,
         CastVoteEvent.selectOption 2, CastVoteEvent.changeEventId 0,
         CastVoteEvent.settle 0]).state =
      { eventId := 0, selectedOption := 2,
        eventDetails := some { title := "Lunch", options := ["Yes", "No"],
                               startTime := "early", endTime := "early" } } ∧
    (CastVote.castVote (some demoContract)
      (CastVote.run demoLocale demoContract CastVoteView.mounted
        [CastVoteEvent.settle 0, CastVoteEvent.changeEventId 1, CastVoteEvent.settle 0,
         CastVoteEvent.selectOption 2, CastVoteEvent.changeEventId 0,
         CastVoteEvent.settle 0]).state).calls = [Call.castVote 0 2] ∧
    (CastVote.run demoLocale demoContract CastVoteView.mounted
        [CastVoteEvent.settle 0, CastVoteEvent.changeEventId 1]).state =
      { eventId := 1, selectedOption := 0,
        eventDetails := some { title := "Lunch", options := ["Yes", "No"],
                               startTime := "early", endTime := "early" } } := by
  decide
/-- C8 (amended): in every state of `CastVote` reached from the mounted view
by poll-id changes, option selections and settled summary reads:
`selectedOption` is 0 or the index picked by a selection made when the summary
loaded at that moment offered it, unchanged by every event since; a loaded
summary is the gateway's summary of the id captured by the last run whose read
settled with a summary, an id entered before (or the initial 0); `eventId` is
the last id entered (0 when none was).  A poll-id change and a settled read
both leave `selectedOption` as it was: it is never reset or checked against
the summary now loaded, and the summary need not be that of `eventId`. -/
theorem castVote_selection_history (toLocaleString : Int → String) (c : Contract)
    (events : List CastVoteEvent) :
    ((CastVote.run toLocaleString c CastVoteView.mounted events).state.selectedOption = 0 ∨
      CastVote.PickedWhenOffered toLocaleString c events
        (CastVote.run toLocaleString c CastVoteView.mounted events).state.selectedOption) ∧
    (∀ d, (CastVote.run toLocaleString c CastVoteView.mounted events).state.eventDetails
        = some d →
      CastVote.LoadedByLastRead toLocaleString c events d) ∧
    (CastVote.run toLocaleString c CastVoteView.mounted events).state.eventId =
      (CastVote.requested events).getLastD 0 ∧
    (∀ (v : CastVoteView) (n : Int),
      (CastVote.step toLocaleString c v (CastVoteEvent.changeEventId n)).state.selectedOption
        = v.state.selectedOption) ∧
    (∀ (v : CastVoteView) (k : Nat),
      (CastVote.step toLocaleString c v (CastVoteEvent.settle k)).state.selectedOption
        = v.state.selectedOption) :=
  ⟨castVote_picked toLocaleString c events,
   castVote_loaded toLocaleString c events,
   castVote_current_id toLocaleString c events,
   fun v n => (castVote_step_change toLocaleString c v n).1,
   fun v k => (castVote_step_settle toLocaleString c v k).1⟩

end Voting
